import Mathlib

/-!
Verification of the particle-life physics engine (`src/simulation.js`,
`src/spatial-hash.js`, `src/constants.js`).

Embedding conventions:
* JS numbers are modelled as rationals (`ℚ`); the arithmetic the claims are
  about (comparisons, +, *, /, min/max, floor) is exact on the inputs involved.
* `Math.sqrt` is modelled as an explicit function parameter `sqrt : ℚ → ℚ`;
  theorems that depend on an algebraic property of the square root take it as
  a hypothesis at the point where the code consults it.
* `Math.random()` is modelled as an explicit stream `rand : ℕ → ℚ` of draws
  in `[0, 1)`; each call of the JS code consumes the next element.
* The structure-of-arrays particle state is modelled by functions `ℕ → ℚ`
  indexed by particle index, together with a `count` field.
-/

namespace Particles

/-- `PARTICLE_RADIUS` from `constants.js`. -/
def PARTICLE_RADIUS : ℚ := 4

/-- `INTERACTION_RADIUS` from `constants.js`. -/
def INTERACTION_RADIUS : ℚ := 300

/-- `REPULSION_RADIUS = PARTICLE_RADIUS * 2` from `constants.js`. -/
def REPULSION_RADIUS : ℚ := PARTICLE_RADIUS * 2

/-- `REPULSION_STRENGTH` from `constants.js`. -/
def REPULSION_STRENGTH : ℚ := 1/2

/-- `FRICTION` from `constants.js`. -/
def FRICTION : ℚ := 98/100

/-- `MAX_VELOCITY` from `constants.js`. -/
def MAX_VELOCITY : ℚ := 5

/-- `FORCE_SCALE` from `constants.js`. -/
def FORCE_SCALE : ℚ := 1/1000

/-- `CELL_SIZE = INTERACTION_RADIUS` from `constants.js`. -/
def CELL_SIZE : ℚ := INTERACTION_RADIUS

/-- State of the uniform-grid spatial hash (`spatial-hash.js`).  The flat
`grid` array of per-cell particle-index lists is modelled as a total function
from the flat integer index to the cell's list. -/
structure SpatialHash where
  cellSize : ℚ
  width : ℚ
  height : ℚ
  cols : ℤ
  rows : ℤ
  grid : ℤ → List ℕ

/-- `new SpatialHash(cellSize, width, height)`: `cols = ceil(width/cellSize)`,
`rows = ceil(height/cellSize)`, all cells empty (the constructor calls
`clear()`). -/
def mkSpatialHash (cellSize width height : ℚ) : SpatialHash :=
  { cellSize := cellSize
    width := width
    height := height
    cols := ⌈width / cellSize⌉
    rows := ⌈height / cellSize⌉
    grid := fun _ => [] }

/-- `SpatialHash.clear()`: empty every cell. -/
def SpatialHash.clear (h : SpatialHash) : SpatialHash :=
  { h with grid := fun _ => [] }

/-- `SpatialHash.getCellIndex(x, y)`: floor cell coordinates, clamped into
`[0, cols-1] × [0, rows-1]`, flattened as `row * cols + col`. -/
def SpatialHash.getCellIndex (h : SpatialHash) (x y : ℚ) : ℤ :=
  let col := ⌊x / h.cellSize⌋
  let row := ⌊y / h.cellSize⌋
  let clampedCol := max 0 (min (h.cols - 1) col)
  let clampedRow := max 0 (min (h.rows - 1) row)
  clampedRow * h.cols + clampedCol

/-- `SpatialHash.insert(particleIndex, x, y)`: push the index onto the cell
given by `getCellIndex`. -/
def SpatialHash.insert (h : SpatialHash) (particleIndex : ℕ) (x y : ℚ) :
    SpatialHash :=
  { h with
    grid := Function.update h.grid (h.getCellIndex x y)
      (h.grid (h.getCellIndex x y) ++ [particleIndex]) }

/-- `SpatialHash.getNearby(x, y)`: concatenation of the cell lists of the 3×3
block of cells around the query point's (unclamped) cell, skipping cells that
fall outside the grid.  `dr`/`dc` run over `-1, 0, 1` in the source; here they
run over `List.range 3` shifted by one, in the same order (rows outer, columns
inner). -/
def SpatialHash.getNearby (h : SpatialHash) (x y : ℚ) : List ℕ :=
  let col := ⌊x / h.cellSize⌋
  let row := ⌊y / h.cellSize⌋
  (List.range 3).flatMap fun dr =>
    (List.range 3).flatMap fun dc =>
      let r := row + (dr : ℤ) - 1
      let c := col + (dc : ℤ) - 1
      if 0 ≤ c ∧ c < h.cols ∧ 0 ≤ r ∧ r < h.rows then
        h.grid (r * h.cols + c)
      else
        []

/-- Insert a list of `(index, x, y)` triples in order (a sequence of
`insert` calls). -/
def SpatialHash.insertAll (h : SpatialHash) (ps : List (ℕ × ℚ × ℚ)) :
    SpatialHash :=
  ps.foldl (fun acc p => acc.insert p.1 p.2.1 p.2.2) h

theorem SpatialHash.insert_cellSize (h : SpatialHash) (i : ℕ) (x y : ℚ) :
    (h.insert i x y).cellSize = h.cellSize := rfl

theorem SpatialHash.insert_cols (h : SpatialHash) (i : ℕ) (x y : ℚ) :
    (h.insert i x y).cols = h.cols := rfl

theorem SpatialHash.insert_rows (h : SpatialHash) (i : ℕ) (x y : ℚ) :
    (h.insert i x y).rows = h.rows := rfl

theorem SpatialHash.getCellIndex_insert (h : SpatialHash) (i : ℕ)
    (x y a b : ℚ) : (h.insert i x y).getCellIndex a b = h.getCellIndex a b :=
  rfl

theorem SpatialHash.insertAll_cellSize (h : SpatialHash)
    (ps : List (ℕ × ℚ × ℚ)) : (h.insertAll ps).cellSize = h.cellSize := by
  induction ps generalizing h with
  | nil => rfl
  | cons p ps ih => simpa [SpatialHash.insertAll] using ih (h.insert p.1 p.2.1 p.2.2)

theorem SpatialHash.insertAll_cols (h : SpatialHash)
    (ps : List (ℕ × ℚ × ℚ)) : (h.insertAll ps).cols = h.cols := by
  induction ps generalizing h with
  | nil => rfl
  | cons p ps ih => simpa [SpatialHash.insertAll] using ih (h.insert p.1 p.2.1 p.2.2)

theorem SpatialHash.insertAll_rows (h : SpatialHash)
    (ps : List (ℕ × ℚ × ℚ)) : (h.insertAll ps).rows = h.rows := by
  induction ps generalizing h with
  | nil => rfl
  | cons p ps ih => simpa [SpatialHash.insertAll] using ih (h.insert p.1 p.2.1 p.2.2)

theorem SpatialHash.mem_grid_insert_of_mem (h : SpatialHash) (i j : ℕ)
    (x y : ℚ) (c : ℤ) (hj : j ∈ h.grid c) : j ∈ (h.insert i x y).grid c := by
  unfold SpatialHash.insert
  by_cases hc : c = h.getCellIndex x y
  · subst hc
    simp [Function.update_same, hj]
  · simpa [Function.update_noteq hc] using hj

theorem SpatialHash.self_mem_grid_insert (h : SpatialHash) (i : ℕ)
    (x y : ℚ) : i ∈ (h.insert i x y).grid (h.getCellIndex x y) := by
  unfold SpatialHash.insert
  simp [Function.update_same]

theorem SpatialHash.mem_grid_insertAll_of_mem (h : SpatialHash) (j : ℕ)
    (ps : List (ℕ × ℚ × ℚ)) (c : ℤ) (hj : j ∈ h.grid c) :
    j ∈ (h.insertAll ps).grid c := by
  induction ps generalizing h with
  | nil => exact hj
  | cons p ps ih =>
      exact ih (h.insert p.1 p.2.1 p.2.2)
        (h.mem_grid_insert_of_mem p.1 j p.2.1 p.2.2 c hj)

theorem SpatialHash.mem_grid_insertAll (h : SpatialHash) (j : ℕ)
    (xj yj : ℚ) (ps : List (ℕ × ℚ × ℚ)) (hj : (j, xj, yj) ∈ ps) :
    j ∈ (h.insertAll ps).grid (h.getCellIndex xj yj) := by
  induction ps generalizing h with
  | nil => cases hj
  | cons p ps ih =>
      rcases List.mem_cons.mp hj with hp | hp
      · subst hp
        exact SpatialHash.mem_grid_insertAll_of_mem _ j ps _
          (h.self_mem_grid_insert j xj yj)
      · have := ih (h.insert p.1 p.2.1 p.2.2) hp
        simpa [SpatialHash.insertAll, SpatialHash.getCellIndex_insert] using this

/-- Floor-cell window: two coordinates within `s` of each other land in
adjacent (or the same) grid columns. -/
theorem floor_window (s x1 x2 : ℚ) (hs : 0 < s) (hd : |x1 - x2| ≤ s) :
    ⌊x1 / s⌋ - 1 ≤ ⌊x2 / s⌋ ∧ ⌊x2 / s⌋ ≤ ⌊x1 / s⌋ + 1 := by
  rcases abs_le.mp hd with ⟨h1, h2⟩
  constructor
  · have hle : (x1 - s) / s ≤ x2 / s :=
      (div_le_div_right hs).mpr (by linarith)
    have heq : (x1 - s) / s = x1 / s - 1 := by
      field_simp
    have := Int.floor_le_floor hle
    rw [heq] at this
    have hfl : ⌊x1 / s - (1:ℚ)⌋ = ⌊x1 / s⌋ - 1 := by
      have := Int.floor_sub_int (x1 / s) 1
      simpa using this
    omega
  · have hle : x2 / s ≤ (x1 + s) / s :=
      (div_le_div_right hs).mpr (by linarith)
    have heq : (x1 + s) / s = x1 / s + 1 := by
      field_simp
    have := Int.floor_le_floor hle
    rw [heq] at this
    have hfl : ⌊x1 / s + (1:ℚ)⌋ = ⌊x1 / s⌋ + 1 := by
      have := Int.floor_add_int (x1 / s) 1
      simpa using this
    omega

/-- An in-bounds coordinate's floor cell lies in `[0, ceil(w/s)]`. -/
theorem floor_cell_bounds (s w x : ℚ) (hs : 0 < s) (h0 : 0 ≤ x) (hw : x ≤ w) :
    0 ≤ ⌊x / s⌋ ∧ ⌊x / s⌋ ≤ ⌈w / s⌉ := by
  constructor
  · exact Int.floor_nonneg.mpr (div_nonneg h0 hs.le)
  · calc ⌊x / s⌋ ≤ ⌈x / s⌉ := Int.floor_le_ceil _
      _ ≤ ⌈w / s⌉ := Int.ceil_le_ceil ((div_le_div_right hs).mpr hw)

/-- Membership in `getNearby` from membership in a cell of the 3×3 window. -/
theorem SpatialHash.mem_getNearby_of_cell (h : SpatialHash) (x y : ℚ)
    (j : ℕ) (r c : ℤ)
    (hc0 : 0 ≤ c) (hc1 : c < h.cols) (hr0 : 0 ≤ r) (hr1 : r < h.rows)
    (hcw1 : ⌊x / h.cellSize⌋ - 1 ≤ c) (hcw2 : c ≤ ⌊x / h.cellSize⌋ + 1)
    (hrw1 : ⌊y / h.cellSize⌋ - 1 ≤ r) (hrw2 : r ≤ ⌊y / h.cellSize⌋ + 1)
    (hj : j ∈ h.grid (r * h.cols + c)) : j ∈ h.getNearby x y := by
  unfold SpatialHash.getNearby
  simp only [List.mem_flatMap, List.mem_range]
  refine ⟨(r - ⌊y / h.cellSize⌋ + 1).toNat, by omega, ?_⟩
  refine ⟨(c - ⌊x / h.cellSize⌋ + 1).toNat, by omega, ?_⟩
  have hr : ⌊y / h.cellSize⌋ + ((r - ⌊y / h.cellSize⌋ + 1).toNat : ℤ) - 1 = r := by
    omega
  have hc : ⌊x / h.cellSize⌋ + ((c - ⌊x / h.cellSize⌋ + 1).toNat : ℤ) - 1 = c := by
    omega
  rw [hr, hc, if_pos ⟨hc0, hc1, hr0, hr1⟩]
  exact hj

/-- Core one-direction soundness of the 3×3 `getNearby` query for in-bounds
points, for every cell size and world size. -/
theorem getNearby_complete_aux (s w ht : ℚ) (ps : List (ℕ × ℚ × ℚ))
    (i j : ℕ) (xi yi xj yj : ℚ)
    (hs : 0 < s) (hw : 0 < w) (hh : 0 < ht)
    (hi : (i, xi, yi) ∈ ps) (hj : (j, xj, yj) ∈ ps)
    (hxi0 : 0 ≤ xi) (hxiw : xi ≤ w) (hyi0 : 0 ≤ yi) (hyih : yi ≤ ht)
    (hxj0 : 0 ≤ xj) (hxjw : xj ≤ w) (hyj0 : 0 ≤ yj) (hyjh : yj ≤ ht)
    (hdx : |xi - xj| ≤ s) (hdy : |yi - yj| ≤ s) :
    j ∈ ((mkSpatialHash s w ht).insertAll ps).getNearby xi yi := by
  set h0 := mkSpatialHash s w ht with hh0
  set H := h0.insertAll ps with hH
  have hcs : H.cellSize = s := by
    rw [hH]; rw [SpatialHash.insertAll_cellSize]; rfl
  have hcols : H.cols = ⌈w / s⌉ := by
    rw [hH]; rw [SpatialHash.insertAll_cols]; rfl
  have hrows : H.rows = ⌈ht / s⌉ := by
    rw [hH]; rw [SpatialHash.insertAll_rows]; rfl
  have hcolspos : 0 < ⌈w / s⌉ := Int.ceil_pos.mpr (div_pos hw hs)
  have hrowspos : 0 < ⌈ht / s⌉ := Int.ceil_pos.mpr (div_pos hh hs)
  have hmem : j ∈ H.grid (h0.getCellIndex xj yj) :=
    SpatialHash.mem_grid_insertAll h0 j xj yj ps hj
  have hwx := floor_window s xi xj hs hdx
  have hwy := floor_window s yi yj hs hdy
  have hbxi := floor_cell_bounds s w xi hs hxi0 hxiw
  have hbyi := floor_cell_bounds s ht yi hs hyi0 hyih
  have hbxj := floor_cell_bounds s w xj hs hxj0 hxjw
  have hbyj := floor_cell_bounds s ht yj hs hyj0 hyjh
  have hidx : h0.getCellIndex xj yj =
      (max 0 (min (⌈ht / s⌉ - 1) ⌊yj / s⌋)) * ⌈w / s⌉ +
      (max 0 (min (⌈w / s⌉ - 1) ⌊xj / s⌋)) := rfl
  apply H.mem_getNearby_of_cell xi yi j
    (max 0 (min (⌈ht / s⌉ - 1) ⌊yj / s⌋))
    (max 0 (min (⌈w / s⌉ - 1) ⌊xj / s⌋))
  · omega
  · rw [hcols]; omega
  · omega
  · rw [hrows]; omega
  · rw [hcs]; omega
  · rw [hcs]; omega
  · rw [hcs]; omega
  · rw [hcs]; omega
  · rw [hcols, ← hidx]; exact hmem

/-- C1 (amended): spatial index soundness as a conservative pre-filter, for
points within the world rectangle `[0, width] × [0, height]`.  For any two
points inserted into a freshly constructed spatial hash, if they lie within
`cellSize` of each other along both axes, then each point's index appears in
`getNearby` queried at the other point's position, for every positive grid
size and cell size.  (The restriction to in-bounds points is forced: `insert`
clamps out-of-range cells while `getNearby` does not, so the original
unrestricted statement fails for points beyond the grid.) -/
theorem spatialHash_getNearby_sound (s w ht : ℚ) (ps : List (ℕ × ℚ × ℚ))
    (i j : ℕ) (xi yi xj yj : ℚ)
    (hs : 0 < s) (hw : 0 < w) (hh : 0 < ht)
    (hi : (i, xi, yi) ∈ ps) (hj : (j, xj, yj) ∈ ps)
    (hxi0 : 0 ≤ xi) (hxiw : xi ≤ w) (hyi0 : 0 ≤ yi) (hyih : yi ≤ ht)
    (hxj0 : 0 ≤ xj) (hxjw : xj ≤ w) (hyj0 : 0 ≤ yj) (hyjh : yj ≤ ht)
    (hdx : |xi - xj| ≤ s) (hdy : |yi - yj| ≤ s) :
    j ∈ ((mkSpatialHash s w ht).insertAll ps).getNearby xi yi ∧
    i ∈ ((mkSpatialHash s w ht).insertAll ps).getNearby xj yj := by
  constructor
  · exact getNearby_complete_aux s w ht ps i j xi yi xj yj hs hw hh hi hj
      hxi0 hxiw hyi0 hyih hxj0 hxjw hyj0 hyjh hdx hdy
  · exact getNearby_complete_aux s w ht ps j i xj yj xi yi hs hw hh hj hi
      hxj0 hxjw hyj0 hyjh hxi0 hxiw hyi0 hyih
      (by rwa [abs_sub_comm]) (by rwa [abs_sub_comm])

/-- C1 witness: a concrete instance of the (amended) soundness theorem, with
cell size 5 on a 10×10 world and points (2,2) and (6,2) at axis distance 4. -/
theorem spatialHash_getNearby_sound_witness :
    1 ∈ ((mkSpatialHash 5 10 10).insertAll [(0, 2, 2), (1, 6, 2)]).getNearby 2 2 ∧
    0 ∈ ((mkSpatialHash 5 10 10).insertAll [(0, 2, 2), (1, 6, 2)]).getNearby 6 2 :=
  spatialHash_getNearby_sound 5 10 10 [(0, 2, 2), (1, 6, 2)] 0 1 2 2 6 2
    (by norm_num) (by norm_num) (by norm_num)
    (by simp) (by simp)
    (by norm_num) (by norm_num) (by norm_num) (by norm_num)
    (by norm_num) (by norm_num) (by norm_num) (by norm_num)
    (by norm_num) (by norm_num)

/-- C1 counterexample to the unrestricted claim: on a 10×10 world with cell
size 5, the points (20,2) and (15,2) are each inserted (insertion clamps
their cells into the grid) and lie within 5 of each other on both axes, yet
`getNearby` at (15,2) misses index 0, because the query's 3×3 window around
the unclamped cell of (15,2) lies entirely outside the grid. -/
theorem spatialHash_getNearby_sound_counterexample :
    |(20:ℚ) - 15| ≤ 5 ∧ |(2:ℚ) - 2| ≤ 5 ∧
    0 ∉ ((mkSpatialHash 5 10 10).insertAll
      [(0, 20, 2), (1, 15, 2)]).getNearby 15 2 := by
  refine ⟨by norm_num, by norm_num, by with_unfolding_all decide⟩

/-- Engine state of `ParticleSimulation` (`simulation.js`), structure-of-arrays
modelled as index functions together with `count`. -/
structure Sim where
  width : ℚ
  height : ℚ
  count : ℕ
  x : ℕ → ℚ
  y : ℕ → ℚ
  vx : ℕ → ℚ
  vy : ℕ → ℚ
  types : ℕ → ℕ
  typeCount : ℕ
  interactionMatrix : ℕ → ℕ → ℚ
  fx : ℕ → ℚ
  fy : ℕ → ℚ
  useBruteForce : Bool
  interactionRadius : ℚ
  spatialHash : SpatialHash

/-- `setBruteForce(useBruteForce)`. -/
def Sim.setBruteForce (useBruteForce : Bool) (sim : Sim) : Sim :=
  { sim with useBruteForce := useBruteForce }

/-- `setInteractionRadius(radius)`: store the radius; rebuild the spatial hash
with the new cell size only when not in brute-force mode. -/
def Sim.setInteractionRadius (radius : ℚ) (sim : Sim) : Sim :=
  let sim1 := { sim with interactionRadius := radius }
  if sim1.useBruteForce then sim1
  else { sim1 with spatialHash := mkSpatialHash radius sim.width sim.height }

/-- `removeParticleType(removedIndex, newTypeCount, newMatrix)`.  The loop
body for particle `i`: particles of the removed type draw
`Math.floor(Math.random() * newTypeCount)` (the draw for particle `i` is
modelled as `rand i`; theorems quantify over all draw streams with values in
`[0, 1)`, so the stream's consumption order is immaterial), types above the
removed index shift down by one, others are untouched. -/
def Sim.removeParticleTypeStep (rand : ℕ → ℚ) (removedIndex newTypeCount : ℕ)
    (s : Sim) (i : ℕ) : Sim :=
  let currentType := s.types i
  if currentType = removedIndex then
    { s with types := Function.update s.types i (⌊rand i * newTypeCount⌋.toNat) }
  else if removedIndex < currentType then
    { s with types := Function.update s.types i (currentType - 1) }
  else s

/-- `removeParticleType`: install the new type count and matrix, then remap
every particle's type in one ascending pass. -/
def Sim.removeParticleType (rand : ℕ → ℚ) (removedIndex newTypeCount : ℕ)
    (newMatrix : ℕ → ℕ → ℚ) (sim : Sim) : Sim :=
  let sim1 := { sim with typeCount := newTypeCount, interactionMatrix := newMatrix }
  (List.range sim.count).foldl
    (Sim.removeParticleTypeStep rand removedIndex newTypeCount) sim1

/-- Squared distance between particles `i` and `j` (`dx*dx + dy*dy` with
`dx = x[j] - x[i]`). -/
def Sim.distSq (sim : Sim) (i j : ℕ) : ℚ :=
  let dx := sim.x j - sim.x i
  let dy := sim.y j - sim.y i
  dx * dx + dy * dy

/-- Pair body of `calculateForcesBruteForce` (`simulation.js` lines 343-377):
skip when `distSq < 0.0001`, otherwise apply the inverse-square
matrix force plus close-range repulsion to `i`'s accumulator and its negation
to `j`'s. -/
def Sim.bfPairUpdate (sqrt : ℚ → ℚ) (sim : Sim) (i j : ℕ) : Sim :=
  let dx := sim.x j - sim.x i
  let dy := sim.y j - sim.y i
  let distSq := dx * dx + dy * dy
  if distSq < 1/10000 then sim
  else
    let dist := sqrt distSq
    let nx := dx / dist
    let ny := dy / dist
    let attraction := (sim.interactionMatrix (sim.types i) (sim.types j) +
      sim.interactionMatrix (sim.types j) (sim.types i)) / 2
    let falloff := REPULSION_RADIUS / dist
    let magnitudeBase := attraction * FORCE_SCALE * falloff * falloff
    let forceMagnitude :=
      if distSq < REPULSION_RADIUS * REPULSION_RADIUS then
        magnitudeBase -
          REPULSION_STRENGTH * (1 - dist / REPULSION_RADIUS) *
            (1 - dist / REPULSION_RADIUS)
      else magnitudeBase
    let fxv := forceMagnitude * nx
    let fyv := forceMagnitude * ny
    let fx1 := Function.update sim.fx i (sim.fx i + fxv)
    let fy1 := Function.update sim.fy i (sim.fy i + fyv)
    let fx2 := Function.update fx1 j (fx1 j - fxv)
    let fy2 := Function.update fy1 j (fy1 j - fyv)
    { sim with fx := fx2, fy := fy2 }

/-- Inner loop of `calculateForcesBruteForce`: `j` runs over `i+1 .. count-1`. -/
def Sim.bfInner (sqrt : ℚ → ℚ) (sim : Sim) (i : ℕ) : Sim :=
  (List.range' (i + 1) (sim.count - (i + 1))).foldl
    (fun s j => Sim.bfPairUpdate sqrt s i j) sim

/-- `calculateForcesBruteForce()`: classic O(n²) double loop. -/
def Sim.calculateForcesBruteForce (sqrt : ℚ → ℚ) (sim : Sim) : Sim :=
  (List.range sim.count).foldl (Sim.bfInner sqrt) sim

/-- Pair body of `calculateForces` (spatial-hash mode, `simulation.js` lines
288-325): skip `j <= i`, skip outside the interaction radius or co-located,
otherwise apply the linear-falloff matrix force plus close-range repulsion,
and its negation, to the two accumulators. -/
def Sim.shPairUpdate (sqrt : ℚ → ℚ) (sim : Sim) (i j : ℕ) : Sim :=
  if j ≤ i then sim
  else
    let dx := sim.x j - sim.x i
    let dy := sim.y j - sim.y i
    let distSq := dx * dx + dy * dy
    if distSq > sim.interactionRadius * sim.interactionRadius ∨ distSq < 1/10000 then
      sim
    else
      let dist := sqrt distSq
      let nx := dx / dist
      let ny := dy / dist
      let t := (dist - REPULSION_RADIUS) /
        (sim.interactionRadius - REPULSION_RADIUS)
      let falloff := max 0 (1 - t)
      let attraction := (sim.interactionMatrix (sim.types i) (sim.types j) +
        sim.interactionMatrix (sim.types j) (sim.types i)) / 2
      let magnitudeBase := attraction * FORCE_SCALE * falloff
      let forceMagnitude :=
        if distSq < REPULSION_RADIUS * REPULSION_RADIUS then
          magnitudeBase -
            REPULSION_STRENGTH * (1 - dist / REPULSION_RADIUS) *
              (1 - dist / REPULSION_RADIUS)
        else magnitudeBase
      let fxv := forceMagnitude * nx
      let fyv := forceMagnitude * ny
      let fx1 := Function.update sim.fx i (sim.fx i + fxv)
      let fy1 := Function.update sim.fy i (sim.fy i + fyv)
      let fx2 := Function.update fx1 j (fx1 j - fxv)
      let fy2 := Function.update fy1 j (fy1 j - fyv)
      { sim with fx := fx2, fy := fy2 }

/-- Inner loop of `calculateForces`: `j` runs over the 3×3-cell candidate
list returned by the spatial hash at particle `i`'s position. -/
def Sim.shInner (sqrt : ℚ → ℚ) (sim : Sim) (i : ℕ) : Sim :=
  (sim.spatialHash.getNearby (sim.x i) (sim.y i)).foldl
    (fun s j => Sim.shPairUpdate sqrt s i j) sim

/-- `calculateForces()`: spatial-hash-accelerated force computation. -/
def Sim.calculateForces (sqrt : ℚ → ℚ) (sim : Sim) : Sim :=
  (List.range sim.count).foldl (Sim.shInner sqrt) sim

/-- The `update()` steps `spatialHash.clear()` followed by inserting every
particle at its current position. -/
def Sim.rebuildSpatialHash (sim : Sim) : Sim :=
  { sim with
    spatialHash := (List.range sim.count).foldl
      (fun h i => h.insert i (sim.x i) (sim.y i)) sim.spatialHash.clear }

/-- Per-particle body of `integrate(dt)` (`dtScale = dt * 60`): velocity
kick from the force accumulator, friction, speed clamp to `MAX_VELOCITY`,
then position update with the updated velocity. -/
def Sim.integrateStep (sqrt : ℚ → ℚ) (dtScale : ℚ) (s : Sim) (i : ℕ) : Sim :=
  let vx1 := s.vx i + s.fx i * dtScale
  let vy1 := s.vy i + s.fy i * dtScale
  let vx2 := vx1 * FRICTION
  let vy2 := vy1 * FRICTION
  let speed := sqrt (vx2 * vx2 + vy2 * vy2)
  let vx3 := if speed > MAX_VELOCITY then vx2 * (MAX_VELOCITY / speed) else vx2
  let vy3 := if speed > MAX_VELOCITY then vy2 * (MAX_VELOCITY / speed) else vy2
  { s with
    x := Function.update s.x i (s.x i + vx3 * dtScale)
    y := Function.update s.y i (s.y i + vy3 * dtScale)
    vx := Function.update s.vx i vx3
    vy := Function.update s.vy i vy3 }

/-- `integrate(dt)`: semi-implicit Euler over all particles. -/
def Sim.integrate (sqrt : ℚ → ℚ) (dt : ℚ) (sim : Sim) : Sim :=
  (List.range sim.count).foldl (Sim.integrateStep sqrt (dt * 60)) sim

/-- Per-particle body of `handleBoundaries()`: per-axis clamp to
`[PARTICLE_RADIUS, dimension - PARTICLE_RADIUS]` with damped velocity
reflection (damping 0.8). -/
def Sim.handleBoundariesStep (s : Sim) (i : ℕ) : Sim :=
  let x1 := if s.x i < PARTICLE_RADIUS then PARTICLE_RADIUS
    else if s.x i > s.width - PARTICLE_RADIUS then s.width - PARTICLE_RADIUS
    else s.x i
  let vx1 := if s.x i < PARTICLE_RADIUS then |s.vx i| * (8/10)
    else if s.x i > s.width - PARTICLE_RADIUS then -|s.vx i| * (8/10)
    else s.vx i
  let y1 := if s.y i < PARTICLE_RADIUS then PARTICLE_RADIUS
    else if s.y i > s.height - PARTICLE_RADIUS then s.height - PARTICLE_RADIUS
    else s.y i
  let vy1 := if s.y i < PARTICLE_RADIUS then |s.vy i| * (8/10)
    else if s.y i > s.height - PARTICLE_RADIUS then -|s.vy i| * (8/10)
    else s.vy i
  { s with
    x := Function.update s.x i x1
    vx := Function.update s.vx i vx1
    y := Function.update s.y i y1
    vy := Function.update s.vy i vy1 }

/-- `handleBoundaries()`: boundary resolution over all particles. -/
def Sim.handleBoundaries (sim : Sim) : Sim :=
  (List.range sim.count).foldl Sim.handleBoundariesStep sim

/-- `this.fx.fill(0); this.fy.fill(0)` at the start of `update()`. -/
def Sim.zeroForces (sim : Sim) : Sim :=
  { sim with fx := fun _ => 0, fy := fun _ => 0 }

/-- The force phase of `update()`: brute force, or spatial-hash rebuild
followed by `calculateForces`. -/
def Sim.forcePhase (sqrt : ℚ → ℚ) (sim : Sim) : Sim :=
  if sim.useBruteForce then Sim.calculateForcesBruteForce sqrt sim
  else Sim.calculateForces sqrt (Sim.rebuildSpatialHash sim)

/-- `update(dt)`: early-out on an empty particle set; clamp `dt` to `1/30`;
zero the force accumulators; compute forces with the selected algorithm
(rebuilding the spatial hash first in spatial-hash mode); integrate; resolve
boundaries. -/
def Sim.update (sqrt : ℚ → ℚ) (dt : ℚ) (sim : Sim) : Sim :=
  if sim.count = 0 then sim
  else
    let normalizedDt := min dt (1/30)
    Sim.handleBoundaries
      (Sim.integrate sqrt normalizedDt (Sim.forcePhase sqrt (Sim.zeroForces sim)))

/-- State of the rejection-sampling placement loop
(`placeParticlesNoOverlap`). -/
structure PlaceState where
  x : ℕ → ℚ
  y : ℕ → ℚ
  types : ℕ → ℕ
  placed : ℕ
  hash : SpatialHash

/-- Collision check of the placement loop: some already-placed neighbor from
the placement hash lies within `minDist = PARTICLE_RADIUS` of the candidate
point (`distSq < minDistSq`). -/
def placeCollision (st : PlaceState) (px py : ℚ) : Bool :=
  (st.hash.getNearby px py).any fun idx =>
    let dx := px - st.x idx
    let dy := py - st.y idx
    decide (dx * dx + dy * dy < PARTICLE_RADIUS * PARTICLE_RADIUS)

/-- One attempt of the placement loop: draw a random point with
`padding = PARTICLE_RADIUS` from the edges (attempt number `attempt` consumes
draws `2*attempt` and `2*attempt + 1`), reject on collision, otherwise store
the particle (round-robin type `placed % typeCount`) and index it. -/
def placeAttempt (rand : ℕ → ℚ) (width height : ℚ) (typeCount : ℕ)
    (attempt : ℕ) (st : PlaceState) : PlaceState :=
  let padding := PARTICLE_RADIUS
  let px := padding + rand (2 * attempt) * (width - 2 * padding)
  let py := padding + rand (2 * attempt + 1) * (height - 2 * padding)
  if placeCollision st px py then st
  else
    { x := Function.update st.x st.placed px
      y := Function.update st.y st.placed py
      types := Function.update st.types st.placed (st.placed % typeCount)
      placed := st.placed + 1
      hash := st.hash.insert st.placed px py }

/-- The empty placement state with the temporary placement hash
(`new SpatialHash(minDist, width, height)` with `minDist =
PARTICLE_RADIUS`). -/
def placeInit (width height : ℚ) : PlaceState :=
  { x := fun _ => 0
    y := fun _ => 0
    types := fun _ => 0
    placed := 0
    hash := mkSpatialHash PARTICLE_RADIUS width height }

/-- The rejection-sampling phase of `placeParticlesNoOverlap()`: up to
`count * 100` attempts, stopping once all `count` particles are placed.  The
random fallback that fills the remainder when the cap is hit is not part of
this phase. -/
def placeParticlesNoOverlap (rand : ℕ → ℚ) (width height : ℚ)
    (typeCount count : ℕ) : PlaceState :=
  (List.range (count * 100)).foldl
    (fun st a =>
      if st.placed < count then placeAttempt rand width height typeCount a st
      else st)
    (placeInit width height)

/-- The per-particle velocity pipeline exactly as §4.1 step 4 of the spec
words it: kick by `f * dtScale`, damp by `FRICTION`, then clamp the speed to
`MAX_VELOCITY` by uniform rescaling. -/
def integrateVelocitySpec (sqrt : ℚ → ℚ) (dtScale vx vy fx fy : ℚ) : ℚ × ℚ :=
  let vxKicked := vx + fx * dtScale
  let vyKicked := vy + fy * dtScale
  let vxDamped := vxKicked * FRICTION
  let vyDamped := vyKicked * FRICTION
  let speed := sqrt (vxDamped * vxDamped + vyDamped * vyDamped)
  if speed > MAX_VELOCITY then
    (vxDamped * (MAX_VELOCITY / speed), vyDamped * (MAX_VELOCITY / speed))
  else (vxDamped, vyDamped)

theorem integrate_foldl_eq (sqrt : ℚ → ℚ) (dts : ℚ) :
    ∀ (n : ℕ) (sim : Sim),
      (List.range n).foldl (Sim.integrateStep sqrt dts) sim =
      { sim with
        vx := fun i => if i < n then
          (integrateVelocitySpec sqrt dts (sim.vx i) (sim.vy i)
            (sim.fx i) (sim.fy i)).1 else sim.vx i
        vy := fun i => if i < n then
          (integrateVelocitySpec sqrt dts (sim.vx i) (sim.vy i)
            (sim.fx i) (sim.fy i)).2 else sim.vy i
        x := fun i => if i < n then
          sim.x i + (integrateVelocitySpec sqrt dts (sim.vx i) (sim.vy i)
            (sim.fx i) (sim.fy i)).1 * dts else sim.x i
        y := fun i => if i < n then
          sim.y i + (integrateVelocitySpec sqrt dts (sim.vx i) (sim.vy i)
            (sim.fx i) (sim.fy i)).2 * dts else sim.y i } := by
  intro n
  induction n with
  | zero =>
      intro sim
      simp
  | succ n ih =>
      intro sim
      rw [List.range_succ, List.foldl_append, ih sim]
      simp only [List.foldl_cons, List.foldl_nil, Sim.integrateStep,
        Sim.mk.injEq, eq_self_iff_true, true_and, and_true]
      refine ⟨?_, ?_, ?_, ?_⟩
      all_goals funext i
      all_goals by_cases hi : i = n
      all_goals try
        (subst hi
         simp only [Function.update_same, if_neg (lt_irrefl _),
           if_pos (Nat.lt_succ_self _), integrateVelocitySpec]
         split_ifs <;> rfl)
      all_goals rw [Function.update_noteq hi]
      all_goals by_cases h2 : i < n
      all_goals first
        | simp [h2, Nat.lt_succ_of_lt h2]
        | (have h3 : ¬ i < n + 1 := by omega
           simp [h2, h3])

/-- Per-axis boundary position resolution exactly as §4.1 step 5 of the spec
words it. -/
def boundaryPosSpec (dim p : ℚ) : ℚ :=
  if p < PARTICLE_RADIUS then PARTICLE_RADIUS
  else if p > dim - PARTICLE_RADIUS then dim - PARTICLE_RADIUS
  else p

/-- Per-axis boundary velocity reflection with damping 0.8, as the spec words
it. -/
def boundaryVelSpec (dim p v : ℚ) : ℚ :=
  if p < PARTICLE_RADIUS then |v| * (8/10)
  else if p > dim - PARTICLE_RADIUS then -|v| * (8/10)
  else v

theorem handleBoundaries_foldl_eq :
    ∀ (n : ℕ) (sim : Sim),
      (List.range n).foldl Sim.handleBoundariesStep sim =
      { sim with
        x := fun i => if i < n then boundaryPosSpec sim.width (sim.x i)
          else sim.x i
        vx := fun i => if i < n then
          boundaryVelSpec sim.width (sim.x i) (sim.vx i) else sim.vx i
        y := fun i => if i < n then boundaryPosSpec sim.height (sim.y i)
          else sim.y i
        vy := fun i => if i < n then
          boundaryVelSpec sim.height (sim.y i) (sim.vy i) else sim.vy i } := by
  intro n
  induction n with
  | zero =>
      intro sim
      simp
  | succ n ih =>
      intro sim
      rw [List.range_succ, List.foldl_append, ih sim]
      simp only [List.foldl_cons, List.foldl_nil, Sim.handleBoundariesStep,
        Sim.mk.injEq, eq_self_iff_true, true_and, and_true]
      refine ⟨?_, ?_, ?_, ?_⟩
      all_goals funext i
      all_goals by_cases hi : i = n
      all_goals try
        (subst hi
         simp only [Function.update_same, if_neg (lt_irrefl _),
           if_pos (Nat.lt_succ_self _), boundaryPosSpec, boundaryVelSpec]
         try (split_ifs <;> rfl))
      all_goals rw [Function.update_noteq hi]
      all_goals by_cases h2 : i < n
      all_goals first
        | simp [h2, Nat.lt_succ_of_lt h2]
        | (have h3 : ¬ i < n + 1 := by omega
           simp [h2, h3])

/-- Per-particle type remap of `removeParticleType`, as the spec words it:
random replacement for the removed type, decrement above it, unchanged
below. -/
def remapTypeSpec (rand : ℕ → ℚ) (removedIndex newTypeCount i t : ℕ) : ℕ :=
  if t = removedIndex then (⌊rand i * newTypeCount⌋).toNat
  else if removedIndex < t then t - 1
  else t

theorem removeTypes_foldl_eq (rand : ℕ → ℚ) (removedIndex newTypeCount : ℕ) :
    ∀ (n : ℕ) (sim : Sim),
      (List.range n).foldl
        (Sim.removeParticleTypeStep rand removedIndex newTypeCount) sim =
      { sim with
        types := fun i => if i < n then
          remapTypeSpec rand removedIndex newTypeCount i (sim.types i)
          else sim.types i } := by
  intro n
  induction n with
  | zero =>
      intro sim
      simp
  | succ n ih =>
      intro sim
      rw [List.range_succ, List.foldl_append, ih sim]
      simp only [List.foldl_cons, List.foldl_nil, Sim.removeParticleTypeStep,
        if_neg (lt_irrefl _)]
      split_ifs with h1 h2
      · simp only [Sim.mk.injEq, eq_self_iff_true, true_and, and_true]
        funext i
        by_cases hi : i = n
        · subst hi
          simp [Function.update_same, remapTypeSpec, h1]
        · rw [Function.update_noteq hi]
          by_cases h3 : i < n
          · simp [h3, Nat.lt_succ_of_lt h3]
          · have h4 : ¬ i < n + 1 := by omega
            simp [h3, h4]
      · simp only [Sim.mk.injEq, eq_self_iff_true, true_and, and_true]
        funext i
        by_cases hi : i = n
        · subst hi
          simp [Function.update_same, remapTypeSpec, h1, h2]
        · rw [Function.update_noteq hi]
          by_cases h3 : i < n
          · simp [h3, Nat.lt_succ_of_lt h3]
          · have h4 : ¬ i < n + 1 := by omega
            simp [h3, h4]
      · simp only [Sim.mk.injEq, eq_self_iff_true, true_and, and_true]
        funext i
        by_cases hi : i = n
        · subst hi
          simp [remapTypeSpec, h1, h2]
        · by_cases h3 : i < n
          · simp [h3, Nat.lt_succ_of_lt h3]
          · have h4 : ¬ i < n + 1 := by omega
            simp [h3, h4, hi]

/-- `t` differs from `s` at most in the force accumulators. -/
def Sim.OnlyForcesDiffer (s t : Sim) : Prop :=
  t = { s with fx := t.fx, fy := t.fy }

/-- `t` differs from `s` at most in the force accumulators and the spatial
hash. -/
def Sim.OnlyForcesAndHashDiffer (s t : Sim) : Prop :=
  t = { s with fx := t.fx, fy := t.fy, spatialHash := t.spatialHash }

theorem Sim.onlyForcesDiffer_refl (s : Sim) : Sim.OnlyForcesDiffer s s := rfl

theorem Sim.onlyForcesDiffer_trans {a b c : Sim}
    (h1 : Sim.OnlyForcesDiffer a b) (h2 : Sim.OnlyForcesDiffer b c) :
    Sim.OnlyForcesDiffer a c := by
  unfold Sim.OnlyForcesDiffer at *
  rw [h2, h1]

theorem Sim.bfPairUpdate_onlyForcesDiffer (sqrt : ℚ → ℚ) (s : Sim)
    (i j : ℕ) : Sim.OnlyForcesDiffer s (Sim.bfPairUpdate sqrt s i j) := by
  unfold Sim.OnlyForcesDiffer
  simp only [Sim.bfPairUpdate]
  split_ifs <;> rfl

theorem Sim.shPairUpdate_onlyForcesDiffer (sqrt : ℚ → ℚ) (s : Sim)
    (i j : ℕ) : Sim.OnlyForcesDiffer s (Sim.shPairUpdate sqrt s i j) := by
  unfold Sim.OnlyForcesDiffer
  simp only [Sim.shPairUpdate]
  split_ifs <;> rfl

theorem Sim.foldl_onlyForcesDiffer {β : Type} (f : Sim → β → Sim)
    (hf : ∀ s b, Sim.OnlyForcesDiffer s (f s b)) :
    ∀ (l : List β) (s : Sim), Sim.OnlyForcesDiffer s (l.foldl f s) := by
  intro l
  induction l with
  | nil => intro s; exact Sim.onlyForcesDiffer_refl s
  | cons b l ihl =>
      intro s
      exact Sim.onlyForcesDiffer_trans (hf s b) (ihl (f s b))

theorem Sim.calculateForcesBruteForce_onlyForcesDiffer (sqrt : ℚ → ℚ)
    (sim : Sim) :
    Sim.OnlyForcesDiffer sim (Sim.calculateForcesBruteForce sqrt sim) := by
  apply Sim.foldl_onlyForcesDiffer
  intro s b
  apply Sim.foldl_onlyForcesDiffer
  intro s2 b2
  exact Sim.bfPairUpdate_onlyForcesDiffer sqrt s2 b b2

theorem Sim.calculateForces_onlyForcesDiffer (sqrt : ℚ → ℚ) (sim : Sim) :
    Sim.OnlyForcesDiffer sim (Sim.calculateForces sqrt sim) := by
  apply Sim.foldl_onlyForcesDiffer
  intro s b
  apply Sim.foldl_onlyForcesDiffer
  intro s2 b2
  exact Sim.shPairUpdate_onlyForcesDiffer sqrt s2 b b2

theorem Sim.forcePhase_onlyForcesAndHashDiffer (sqrt : ℚ → ℚ) (sim : Sim) :
    Sim.OnlyForcesAndHashDiffer sim (Sim.forcePhase sqrt sim) := by
  unfold Sim.forcePhase Sim.OnlyForcesAndHashDiffer
  split_ifs with h
  · have := Sim.calculateForcesBruteForce_onlyForcesDiffer sqrt sim
    unfold Sim.OnlyForcesDiffer at this
    rw [this]
  · have := Sim.calculateForces_onlyForcesDiffer sqrt
      (Sim.rebuildSpatialHash sim)
    unfold Sim.OnlyForcesDiffer at this
    rw [this]
    rfl

theorem Sim.OnlyForcesDiffer.eq_x {s t : Sim} (h : Sim.OnlyForcesDiffer s t) :
    t.x = s.x := by rw [h]

theorem Sim.OnlyForcesDiffer.eq_y {s t : Sim} (h : Sim.OnlyForcesDiffer s t) :
    t.y = s.y := by rw [h]

theorem Sim.OnlyForcesDiffer.eq_vx {s t : Sim}
    (h : Sim.OnlyForcesDiffer s t) : t.vx = s.vx := by rw [h]

theorem Sim.OnlyForcesDiffer.eq_vy {s t : Sim}
    (h : Sim.OnlyForcesDiffer s t) : t.vy = s.vy := by rw [h]

theorem Sim.OnlyForcesDiffer.eq_count {s t : Sim}
    (h : Sim.OnlyForcesDiffer s t) : t.count = s.count := by rw [h]

theorem Sim.OnlyForcesAndHashDiffer.eqFH_x {s t : Sim}
    (h : Sim.OnlyForcesAndHashDiffer s t) : t.x = s.x := by rw [h]

theorem Sim.OnlyForcesAndHashDiffer.eqFH_y {s t : Sim}
    (h : Sim.OnlyForcesAndHashDiffer s t) : t.y = s.y := by rw [h]

theorem Sim.OnlyForcesAndHashDiffer.eqFH_vx {s t : Sim}
    (h : Sim.OnlyForcesAndHashDiffer s t) : t.vx = s.vx := by rw [h]

theorem Sim.OnlyForcesAndHashDiffer.eqFH_vy {s t : Sim}
    (h : Sim.OnlyForcesAndHashDiffer s t) : t.vy = s.vy := by rw [h]

theorem Sim.OnlyForcesAndHashDiffer.eqFH_count {s t : Sim}
    (h : Sim.OnlyForcesAndHashDiffer s t) : t.count = s.count := by rw [h]

theorem Sim.OnlyForcesAndHashDiffer.eq_width {s t : Sim}
    (h : Sim.OnlyForcesAndHashDiffer s t) : t.width = s.width := by rw [h]

theorem Sim.OnlyForcesAndHashDiffer.eq_height {s t : Sim}
    (h : Sim.OnlyForcesAndHashDiffer s t) : t.height = s.height := by rw [h]

/-- Two hashes with the same geometry (cell size and grid dimensions). -/
def SpatialHash.SameGeometry (g h : SpatialHash) : Prop :=
  h.cellSize = g.cellSize ∧ h.cols = g.cols ∧ h.rows = g.rows

theorem SpatialHash.sameGeometry_refl (g : SpatialHash) :
    SpatialHash.SameGeometry g g := ⟨rfl, rfl, rfl⟩

theorem SpatialHash.sameGeometry_insert {g h : SpatialHash}
    (hg : SpatialHash.SameGeometry g h) (i : ℕ) (x y : ℚ) :
    SpatialHash.SameGeometry g (h.insert i x y) := hg

theorem SpatialHash.sameGeometry_clear (g : SpatialHash) :
    SpatialHash.SameGeometry g g.clear := ⟨rfl, rfl, rfl⟩

theorem SpatialHash.getCellIndex_congr {g h : SpatialHash}
    (hg : SpatialHash.SameGeometry g h) (x y : ℚ) :
    h.getCellIndex x y = g.getCellIndex x y := by
  unfold SpatialHash.getCellIndex
  rw [hg.1, hg.2.1, hg.2.2]

theorem SpatialHash.foldl_insert_sameGeometry {β : Type}
    (g : β → ℕ) (gx gy : β → ℚ) :
    ∀ (l : List β) (h : SpatialHash),
      SpatialHash.SameGeometry h
        (l.foldl (fun acc b => acc.insert (g b) (gx b) (gy b)) h) := by
  intro l
  induction l with
  | nil => intro h; exact SpatialHash.sameGeometry_refl h
  | cons b l ihl =>
      intro h
      have h1 := ihl (h.insert (g b) (gx b) (gy b))
      simp only [List.foldl_cons]
      exact h1

/-- Count of an index in one cell after inserting a single particle. -/
theorem SpatialHash.count_grid_insert (h : SpatialHash) (i j : ℕ)
    (x y : ℚ) (c : ℤ) :
    ((h.insert i x y).grid c).count j =
    (h.grid c).count j +
      (if c = h.getCellIndex x y ∧ j = i then 1 else 0) := by
  unfold SpatialHash.insert
  by_cases hc : c = h.getCellIndex x y
  · subst hc
    simp only [Function.update_same, List.count_append, true_and]
    by_cases hj : j = i
    · subst hj
      simp
    · simp [hj, List.count_singleton, if_neg hj]
  · dsimp only
    rw [Function.update_noteq hc]
    simp [hc]

/-- The grid built by the `update()` rebuild (inserting indices `0..n-1` at
their positions into a cleared hash) holds each index `j < n` exactly once,
in the cell `getCellIndex (x j) (y j)`, and no other index. -/
theorem rebuild_grid_count (x y : ℕ → ℚ) (h0 : SpatialHash) :
    ∀ (n : ℕ) (j : ℕ) (c : ℤ),
      (((List.range n).foldl (fun h i => h.insert i (x i) (y i))
        h0.clear).grid c).count j =
      if j < n ∧ c = h0.getCellIndex (x j) (y j) then 1 else 0 := by
  intro n
  induction n with
  | zero =>
      intro j c
      simp [SpatialHash.clear]
  | succ n ih =>
      intro j c
      rw [List.range_succ, List.foldl_append]
      simp only [List.foldl_cons, List.foldl_nil]
      have hgeo : SpatialHash.SameGeometry h0
          ((List.range n).foldl (fun h i => h.insert i (x i) (y i))
            h0.clear) := by
        have h1 := SpatialHash.foldl_insert_sameGeometry
          (fun i : ℕ => i) x y (List.range n) h0.clear
        exact ⟨h1.1, h1.2.1, h1.2.2⟩
      rw [SpatialHash.count_grid_insert, ih j c,
        SpatialHash.getCellIndex_congr hgeo]
      by_cases hj : j = n
      · subst hj
        simp only [lt_irrefl, false_and, if_false, Nat.lt_succ_self, true_and,
          zero_add]
        by_cases hc : c = h0.getCellIndex (x j) (y j)
        · simp [hc]
        · simp [hc]
      · have hlt : (j < n + 1) = (j < n) := by
          simp only [eq_iff_iff]; omega
        simp [hj, hlt]

/-- Every element of a `getNearby` result lies in some grid cell. -/
theorem SpatialHash.mem_grid_of_mem_getNearby (h : SpatialHash) (x y : ℚ)
    (j : ℕ) (hj : j ∈ h.getNearby x y) : ∃ c, j ∈ h.grid c := by
  unfold SpatialHash.getNearby at hj
  simp only [List.mem_flatMap, List.mem_range] at hj
  obtain ⟨dr, _, dc, _, hmem⟩ := hj
  by_cases hcond : (0 ≤ ⌊x / h.cellSize⌋ + (dc : ℤ) - 1 ∧
      ⌊x / h.cellSize⌋ + (dc : ℤ) - 1 < h.cols ∧
      0 ≤ ⌊y / h.cellSize⌋ + (dr : ℤ) - 1 ∧
      ⌊y / h.cellSize⌋ + (dr : ℤ) - 1 < h.rows)
  · rw [if_pos hcond] at hmem
    exact ⟨_, hmem⟩
  · rw [if_neg hcond] at hmem
    cases hmem

theorem List.foldl_congr_id {α β : Type} (f : α → β → α) (l : List β)
    (s : α) (h : ∀ (a : α) (b : β), b ∈ l → f a b = a) : l.foldl f s = s := by
  induction l generalizing s with
  | nil => rfl
  | cons b l ihl =>
      simp only [List.foldl_cons]
      rw [h s b (List.mem_cons_self b l)]
      exact ihl s fun a b2 hb2 => h a b2 (List.mem_cons_of_mem b hb2)

theorem Sim.calculateForcesBruteForce_of_count_le_one (sqrt : ℚ → ℚ)
    (sim : Sim) (h : sim.count ≤ 1) :
    Sim.calculateForcesBruteForce sqrt sim = sim := by
  unfold Sim.calculateForcesBruteForce
  interval_cases hc : sim.count
  · rfl
  · show (List.range 1).foldl (Sim.bfInner sqrt) sim = sim
    rw [show List.range 1 = [0] from rfl]
    simp only [List.foldl_cons, List.foldl_nil]
    unfold Sim.bfInner
    rw [hc]
    rfl

theorem Sim.calculateForces_rebuilt_of_count_le_one (sqrt : ℚ → ℚ)
    (sim : Sim) (h : sim.count ≤ 1) :
    Sim.calculateForces sqrt (Sim.rebuildSpatialHash sim) =
      Sim.rebuildSpatialHash sim := by
  unfold Sim.calculateForces
  set R := Sim.rebuildSpatialHash sim with hR
  have hRc : R.count = sim.count := rfl
  rw [hRc]
  interval_cases hc : sim.count
  · rfl
  · show (List.range 1).foldl (Sim.shInner sqrt) R = R
    rw [show List.range 1 = [0] from rfl]
    simp only [List.foldl_cons, List.foldl_nil]
    unfold Sim.shInner
    apply List.foldl_congr_id
    intro a j hj
    have hj0 : j = 0 := by
      obtain ⟨c, hcmem⟩ :=
        SpatialHash.mem_grid_of_mem_getNearby R.spatialHash
          (R.x 0) (R.y 0) j hj
      by_contra hne
      have hcnt := rebuild_grid_count sim.x sim.y sim.spatialHash
        sim.count j c
      rw [hc] at hcnt
      have hnot : ¬ (j < 1 ∧ c = sim.spatialHash.getCellIndex
          (sim.x j) (sim.y j)) := by
        intro hcontra
        exact hne (by omega)
      rw [if_neg hnot] at hcnt
      have hR2 : R.spatialHash = (List.range sim.count).foldl
          (fun h i => h.insert i (sim.x i) (sim.y i))
          sim.spatialHash.clear := by
        rw [hR]; rfl
      rw [hR2, hc] at hcmem
      exact (List.count_eq_zero.mp hcnt) hcmem
    subst hj0
    unfold Sim.shPairUpdate
    rw [if_pos (le_refl 0)]

theorem Sim.forcePhase_of_count_le_one (sqrt : ℚ → ℚ) (sim : Sim)
    (h : sim.count ≤ 1) :
    Sim.forcePhase sqrt sim =
      if sim.useBruteForce then sim else Sim.rebuildSpatialHash sim := by
  unfold Sim.forcePhase
  by_cases hb : sim.useBruteForce
  · rw [if_pos hb, if_pos hb,
      Sim.calculateForcesBruteForce_of_count_le_one sqrt sim h]
  · rw [if_neg hb, if_neg hb,
      Sim.calculateForces_rebuilt_of_count_le_one sqrt sim h]

/-- A concrete engine state with no particles (brute-force mode, default
constants, 800×600 world). -/
def emptySim : Sim :=
  { width := 800
    height := 600
    count := 0
    x := fun _ => 0
    y := fun _ => 0
    vx := fun _ => 0
    vy := fun _ => 0
    types := fun _ => 0
    typeCount := 3
    interactionMatrix := fun _ _ => 0
    fx := fun _ => 0
    fy := fun _ => 0
    useBruteForce := true
    interactionRadius := 300
    spatialHash := mkSpatialHash 300 800 600 }

/-- C9: `update(dt)` on a simulation whose particle count is 0 returns with
the engine state unchanged — no force-accumulator reset, no spatial-index
rebuild, no position, velocity, or type change (the whole state record is
equal). -/
theorem update_empty_noop (sqrt : ℚ → ℚ) (dt : ℚ) (sim : Sim)
    (h : sim.count = 0) : Sim.update sqrt dt sim = sim := by
  unfold Sim.update
  rw [if_pos h]

/-- C9 witness: the empty-state no-op at a concrete state and `dt`. -/
theorem update_empty_noop_witness :
    Sim.update (fun _ => 0) (1/60) emptySim = emptySim :=
  update_empty_noop (fun _ => 0) (1/60) emptySim rfl

/-- C10: `setBruteForce` mutates only the `useBruteForce` flag;
`setInteractionRadius` replaces the spatial index (cell size = the new
radius) only when `useBruteForce` is false at call time; consequently setting
the radius while in brute-force mode and then switching to spatial-hash mode
leaves the spatial index untouched, so its cell size keeps its previous
value and (whenever that previous value differs from the new radius) does not
equal the current `interactionRadius`. -/
theorem setters_stale_cellSize (sim : Sim) (b : Bool) (r : ℚ) :
    Sim.setBruteForce b sim = { sim with useBruteForce := b } ∧
    (sim.useBruteForce = true →
      Sim.setInteractionRadius r sim = { sim with interactionRadius := r }) ∧
    (sim.useBruteForce = false →
      (Sim.setInteractionRadius r sim).spatialHash =
        mkSpatialHash r sim.width sim.height) ∧
    (sim.useBruteForce = true →
      (Sim.setBruteForce false (Sim.setInteractionRadius r sim)).spatialHash
          = sim.spatialHash ∧
      (Sim.setBruteForce false
          (Sim.setInteractionRadius r sim)).interactionRadius = r ∧
      (sim.spatialHash.cellSize ≠ r →
        (Sim.setBruteForce false
            (Sim.setInteractionRadius r sim)).spatialHash.cellSize ≠
        (Sim.setBruteForce false
            (Sim.setInteractionRadius r sim)).interactionRadius)) := by
  refine ⟨rfl, ?_, ?_, ?_⟩
  · intro hb
    unfold Sim.setInteractionRadius
    rw [if_pos]
    exact hb
  · intro hb
    unfold Sim.setInteractionRadius
    rw [if_neg]
    simp [hb]
  · intro hb
    have h1 : Sim.setInteractionRadius r sim =
        { sim with interactionRadius := r } := by
      unfold Sim.setInteractionRadius
      rw [if_pos]
      exact hb
    refine ⟨by rw [Sim.setBruteForce, h1], by rw [Sim.setBruteForce, h1], ?_⟩
    intro hne
    rw [Sim.setBruteForce, h1]
    exact hne

/-- C10 witness: radius 1000 set in brute-force mode, then a switch to
spatial-hash mode: the cell size is still 300, the radius 1000. -/
theorem setters_stale_cellSize_witness :
    (Sim.setBruteForce false
      (Sim.setInteractionRadius 1000 emptySim)).spatialHash.cellSize = 300 ∧
    (Sim.setBruteForce false
      (Sim.setInteractionRadius 1000 emptySim)).interactionRadius = 1000 := by
  obtain ⟨-, -, -, h4⟩ := setters_stale_cellSize emptySim false 1000
  obtain ⟨h41, h42, -⟩ := h4 rfl
  exact ⟨by rw [h41]; rfl, h42⟩

/-- C7: after `removeParticleType(removedIndex, newTypeCount, newMatrix)`,
each particle's new type is a function of its own prior type (and its own
random draw): the removed type is reassigned to
`floor(random * newTypeCount)`, which lies in `[0, newTypeCount)`; types
above the removed index decrement by one; types below are unchanged; and
consequently (for a prior state with types `< newTypeCount + 1` and a valid
removed index) no particle ends with a type `≥ newTypeCount`. -/
theorem removeParticleType_remap (rand : ℕ → ℚ)
    (removedIndex newTypeCount : ℕ) (newMatrix : ℕ → ℕ → ℚ) (sim : Sim)
    (i : ℕ) (hrand : ∀ k, 0 ≤ rand k ∧ rand k < 1) (hntc : 0 < newTypeCount)
    (hi : i < sim.count) :
    ((Sim.removeParticleType rand removedIndex newTypeCount newMatrix
        sim).types i =
      remapTypeSpec rand removedIndex newTypeCount i (sim.types i)) ∧
    (sim.types i = removedIndex →
      (Sim.removeParticleType rand removedIndex newTypeCount newMatrix
        sim).types i < newTypeCount) ∧
    (removedIndex < sim.types i →
      (Sim.removeParticleType rand removedIndex newTypeCount newMatrix
        sim).types i = sim.types i - 1) ∧
    (sim.types i < removedIndex →
      (Sim.removeParticleType rand removedIndex newTypeCount newMatrix
        sim).types i = sim.types i) ∧
    (sim.types i ≤ newTypeCount → removedIndex ≤ newTypeCount →
      (Sim.removeParticleType rand removedIndex newTypeCount newMatrix
        sim).types i < newTypeCount) := by
  have hchar : (Sim.removeParticleType rand removedIndex newTypeCount
      newMatrix sim).types i =
      remapTypeSpec rand removedIndex newTypeCount i (sim.types i) := by
    unfold Sim.removeParticleType
    rw [removeTypes_foldl_eq]
    dsimp only
    rw [if_pos hi]
  have hfloor : (⌊rand i * (newTypeCount : ℚ)⌋).toNat < newTypeCount := by
    have h0 : (0:ℚ) < (newTypeCount : ℚ) := by
      exact_mod_cast hntc
    have h2 : rand i * (newTypeCount : ℚ) < (newTypeCount : ℚ) := by
      have h3 := (hrand i).2
      nlinarith
    have h4 : ⌊rand i * (newTypeCount : ℚ)⌋ < (newTypeCount : ℤ) := by
      apply Int.floor_lt.mpr
      push_cast
      exact h2
    omega
  refine ⟨hchar, ?_, ?_, ?_, ?_⟩
  · intro heq
    rw [hchar]
    unfold remapTypeSpec
    rw [if_pos heq]
    exact hfloor
  · intro hgt
    rw [hchar]
    unfold remapTypeSpec
    rw [if_neg (by omega), if_pos hgt]
  · intro hlt
    rw [hchar]
    unfold remapTypeSpec
    rw [if_neg (by omega), if_neg (by omega)]
  · intro hb hr
    rw [hchar]
    unfold remapTypeSpec
    split_ifs with h1 h2
    · exact hfloor
    · omega
    · omega

/-- A concrete engine state with four particles of types `0, 1, 2, 3`. -/
def fourTypeSim : Sim :=
  { width := 800
    height := 600
    count := 4
    x := fun i => 100 + 10 * i
    y := fun _ => 100
    vx := fun _ => 0
    vy := fun _ => 0
    types := fun i => i
    typeCount := 4
    interactionMatrix := fun _ _ => 0
    fx := fun _ => 0
    fy := fun _ => 0
    useBruteForce := true
    interactionRadius := 300
    spatialHash := mkSpatialHash 300 800 600 }

/-- C7 witness: removing type index 1 from a 4-type population — a particle
of prior type 2 shifts to type 1, one of prior type 0 keeps type 0, and the
reassigned prior-type-1 particle ends below the new type count 3. -/
theorem removeParticleType_remap_witness :
    (Sim.removeParticleType (fun _ => 1/2) 1 3 (fun _ _ => 0)
      fourTypeSim).types 2 = 1 ∧
    (Sim.removeParticleType (fun _ => 1/2) 1 3 (fun _ _ => 0)
      fourTypeSim).types 0 = 0 ∧
    (Sim.removeParticleType (fun _ => 1/2) 1 3 (fun _ _ => 0)
      fourTypeSim).types 1 < 3 := by
  refine ⟨?_, ?_, ?_⟩
  · have h := (removeParticleType_remap (fun _ => 1/2) 1 3 (fun _ _ => 0)
      fourTypeSim 2 (fun k => by norm_num) (by norm_num)
      (by norm_num [fourTypeSim])).2.2.1 (by norm_num [fourTypeSim])
    simpa [fourTypeSim] using h
  · have h := (removeParticleType_remap (fun _ => 1/2) 1 3 (fun _ _ => 0)
      fourTypeSim 0 (fun k => by norm_num) (by norm_num)
      (by norm_num [fourTypeSim])).2.2.2.1 (by norm_num [fourTypeSim])
    simpa [fourTypeSim] using h
  · exact (removeParticleType_remap (fun _ => 1/2) 1 3 (fun _ _ => 0)
      fourTypeSim 1 (fun k => by norm_num) (by norm_num)
      (by norm_num [fourTypeSim])).2.1 (by norm_num [fourTypeSim])

/-- C3: `update(dt)` integrates with `dt' = min(dt, 1/30)` (after the force
phase, before boundary resolution); for every particle the integration step
performs, in order, the velocity kick `v += f * dt' * 60`, the friction
damping `v *= FRICTION`, the speed clamp, and the position update
`p += v * dt' * 60` with the updated velocity (the staging is
`integrateVelocitySpec`); and when the post-friction speed exceeds
`MAX_VELOCITY` (with the square root exact at the consulted point), the
rescaled velocity has squared magnitude exactly `MAX_VELOCITY ^ 2`. -/
theorem update_semiImplicitEuler (sqrt : ℚ → ℚ) (dt : ℚ) (sim : Sim)
    (i : ℕ) :
    (sim.count ≠ 0 →
      Sim.update sqrt dt sim =
        Sim.handleBoundaries (Sim.integrate sqrt (min dt (1/30))
          (Sim.forcePhase sqrt (Sim.zeroForces sim)))) ∧
    (i < sim.count →
      (Sim.integrate sqrt dt sim).vx i =
        (integrateVelocitySpec sqrt (dt * 60) (sim.vx i) (sim.vy i)
          (sim.fx i) (sim.fy i)).1 ∧
      (Sim.integrate sqrt dt sim).vy i =
        (integrateVelocitySpec sqrt (dt * 60) (sim.vx i) (sim.vy i)
          (sim.fx i) (sim.fy i)).2 ∧
      (Sim.integrate sqrt dt sim).x i =
        sim.x i + (integrateVelocitySpec sqrt (dt * 60) (sim.vx i) (sim.vy i)
          (sim.fx i) (sim.fy i)).1 * (dt * 60) ∧
      (Sim.integrate sqrt dt sim).y i =
        sim.y i + (integrateVelocitySpec sqrt (dt * 60) (sim.vx i) (sim.vy i)
          (sim.fx i) (sim.fy i)).2 * (dt * 60)) ∧
    (∀ vx vy fx fy : ℚ,
      sqrt (((vx + fx * (dt * 60)) * FRICTION) *
            ((vx + fx * (dt * 60)) * FRICTION) +
            ((vy + fy * (dt * 60)) * FRICTION) *
            ((vy + fy * (dt * 60)) * FRICTION)) *
        sqrt (((vx + fx * (dt * 60)) * FRICTION) *
            ((vx + fx * (dt * 60)) * FRICTION) +
            ((vy + fy * (dt * 60)) * FRICTION) *
            ((vy + fy * (dt * 60)) * FRICTION)) =
        ((vx + fx * (dt * 60)) * FRICTION) *
            ((vx + fx * (dt * 60)) * FRICTION) +
            ((vy + fy * (dt * 60)) * FRICTION) *
            ((vy + fy * (dt * 60)) * FRICTION) →
      sqrt (((vx + fx * (dt * 60)) * FRICTION) *
            ((vx + fx * (dt * 60)) * FRICTION) +
            ((vy + fy * (dt * 60)) * FRICTION) *
            ((vy + fy * (dt * 60)) * FRICTION)) > MAX_VELOCITY →
      (integrateVelocitySpec sqrt (dt * 60) vx vy fx fy).1 ^ 2 +
        (integrateVelocitySpec sqrt (dt * 60) vx vy fx fy).2 ^ 2 =
        MAX_VELOCITY ^ 2) := by
  refine ⟨?_, ?_, ?_⟩
  · intro h
    unfold Sim.update
    rw [if_neg h]
  · intro hi
    unfold Sim.integrate
    rw [integrate_foldl_eq]
    dsimp only
    rw [if_pos hi, if_pos hi, if_pos hi, if_pos hi]
    exact ⟨rfl, rfl, rfl, rfl⟩
  · intro vx vy fx fy hsq hgt
    unfold integrateVelocitySpec
    rw [if_pos hgt]
    dsimp only
    set a := (vx + fx * (dt * 60)) * FRICTION with ha
    set b := (vy + fy * (dt * 60)) * FRICTION with hb
    set s := sqrt (a * a + b * b) with hs
    have hs0 : s ≠ 0 := by
      intro h0
      rw [h0] at hgt
      norm_num [MAX_VELOCITY] at hgt
    field_simp
    linear_combination (-(MAX_VELOCITY ^ 2) : ℚ) * hsq

/-- A square-root stub for the C3 witness: correct at the one point where the
clamp consults it. -/
def sqrtW : ℚ → ℚ := fun q => if q = 100 then 10 else 0

/-- C3 witness: the update pipeline factorization, the per-particle
integration staging, and an exact clamp at post-friction speed 10 (velocity
(300/49, 400/49), friction 0.98): the clamped speed squared is exactly
`MAX_VELOCITY ^ 2`. -/
theorem update_semiImplicitEuler_witness :
    (Sim.update sqrtW (1/60) fourTypeSim =
      Sim.handleBoundaries (Sim.integrate sqrtW (min (1/60) (1/30))
        (Sim.forcePhase sqrtW (Sim.zeroForces fourTypeSim)))) ∧
    ((Sim.integrate sqrtW (1/60) fourTypeSim).vx 0 =
      (integrateVelocitySpec sqrtW ((1/60) * 60) (fourTypeSim.vx 0)
        (fourTypeSim.vy 0) (fourTypeSim.fx 0) (fourTypeSim.fy 0)).1) ∧
    ((integrateVelocitySpec sqrtW ((1/60) * 60) (300/49) (400/49) 0 0).1 ^ 2 +
      (integrateVelocitySpec sqrtW ((1/60) * 60) (300/49) (400/49) 0 0).2 ^ 2 =
      MAX_VELOCITY ^ 2) := by
  refine ⟨?_, ?_, ?_⟩
  · exact (update_semiImplicitEuler sqrtW (1/60) fourTypeSim 0).1
      (by norm_num [fourTypeSim])
  · exact ((update_semiImplicitEuler sqrtW (1/60) fourTypeSim 0).2.1
      (by norm_num [fourTypeSim])).1
  · apply (update_semiImplicitEuler sqrtW (1/60) fourTypeSim 0).2.2
      (300/49) (400/49) 0 0
    · norm_num [sqrtW, FRICTION]
    · norm_num [sqrtW, FRICTION, MAX_VELOCITY]

/-- The clamp never flips the sign of a non-positive damped x-velocity. -/
theorem integrateVelocitySpec_fst_nonpos (sqrt : ℚ → ℚ)
    (dts vx vy fx fy : ℚ) (h : (vx + fx * dts) * FRICTION ≤ 0) :
    (integrateVelocitySpec sqrt dts vx vy fx fy).1 ≤ 0 := by
  unfold integrateVelocitySpec
  dsimp only
  split_ifs with hclamp
  · have h5 : (0:ℚ) < MAX_VELOCITY := by norm_num [MAX_VELOCITY]
    set s := sqrt ((vx + fx * dts) * FRICTION * ((vx + fx * dts) * FRICTION)
      + (vy + fy * dts) * FRICTION * ((vy + fy * dts) * FRICTION)) with hs
    have hsp : 0 < s := lt_trans h5 hclamp
    have hdiv : 0 ≤ MAX_VELOCITY / s := le_of_lt (div_pos h5 hsp)
    nlinarith
  · exact h

/-- C4: after boundary resolution, per particle and per axis independently:
a position below `PARTICLE_RADIUS` is set to exactly `PARTICLE_RADIUS` and
that axis's velocity becomes `|v| * 0.8` (hence non-negative); symmetrically
at the upper bound `dimension - PARTICLE_RADIUS` the velocity becomes
`-|v| * 0.8` (hence non-positive); and in particular a single-particle state
at `x = PARTICLE_RADIUS - 1` with `vx = -2` has, after one `update(dt)` with
`dt ≥ 0`, `x = PARTICLE_RADIUS` and `vx ≥ 0`. -/
theorem boundary_reflection (sim : Sim) (i : ℕ) (sqrt : ℚ → ℚ) (dt : ℚ)
    (sim1 : Sim) :
    (i < sim.count →
      (Sim.handleBoundaries sim).x i = boundaryPosSpec sim.width (sim.x i) ∧
      (Sim.handleBoundaries sim).vx i =
        boundaryVelSpec sim.width (sim.x i) (sim.vx i) ∧
      (Sim.handleBoundaries sim).y i = boundaryPosSpec sim.height (sim.y i) ∧
      (Sim.handleBoundaries sim).vy i =
        boundaryVelSpec sim.height (sim.y i) (sim.vy i)) ∧
    (i < sim.count → sim.x i < PARTICLE_RADIUS →
      (Sim.handleBoundaries sim).x i = PARTICLE_RADIUS ∧
      (Sim.handleBoundaries sim).vx i = |sim.vx i| * (8/10) ∧
      0 ≤ (Sim.handleBoundaries sim).vx i) ∧
    (i < sim.count → ¬ sim.x i < PARTICLE_RADIUS →
      sim.x i > sim.width - PARTICLE_RADIUS →
      (Sim.handleBoundaries sim).x i = sim.width - PARTICLE_RADIUS ∧
      (Sim.handleBoundaries sim).vx i = -|sim.vx i| * (8/10) ∧
      (Sim.handleBoundaries sim).vx i ≤ 0) ∧
    (sim1.count = 1 → sim1.x 0 = PARTICLE_RADIUS - 1 → sim1.vx 0 = -2 →
      0 ≤ dt →
      (Sim.update sqrt dt sim1).x 0 = PARTICLE_RADIUS ∧
      0 ≤ (Sim.update sqrt dt sim1).vx 0) := by
  have hchar : ∀ (t : Sim) (k : ℕ), k < t.count →
      (Sim.handleBoundaries t).x k = boundaryPosSpec t.width (t.x k) ∧
      (Sim.handleBoundaries t).vx k =
        boundaryVelSpec t.width (t.x k) (t.vx k) ∧
      (Sim.handleBoundaries t).y k = boundaryPosSpec t.height (t.y k) ∧
      (Sim.handleBoundaries t).vy k =
        boundaryVelSpec t.height (t.y k) (t.vy k) := by
    intro t k hk
    unfold Sim.handleBoundaries
    rw [handleBoundaries_foldl_eq]
    dsimp only
    rw [if_pos hk, if_pos hk, if_pos hk, if_pos hk]
    exact ⟨rfl, rfl, rfl, rfl⟩
  refine ⟨hchar sim i, ?_, ?_, ?_⟩
  · intro hi hx
    obtain ⟨h1, h2, -, -⟩ := hchar sim i hi
    rw [h1, h2]
    unfold boundaryPosSpec boundaryVelSpec
    rw [if_pos hx, if_pos hx]
    refine ⟨rfl, rfl, ?_⟩
    exact mul_nonneg (abs_nonneg _) (by norm_num)
  · intro hi hx hxu
    obtain ⟨h1, h2, -, -⟩ := hchar sim i hi
    rw [h1, h2]
    unfold boundaryPosSpec boundaryVelSpec
    rw [if_neg hx, if_neg hx, if_pos hxu, if_pos hxu]
    refine ⟨rfl, rfl, ?_⟩
    have := mul_nonneg (abs_nonneg (sim.vx i)) (show (0:ℚ) ≤ 8/10 by norm_num)
    linarith
  · intro hc hx hv hdt
    have hupd : Sim.update sqrt dt sim1 =
        Sim.handleBoundaries (Sim.integrate sqrt (min dt (1/30))
          (Sim.forcePhase sqrt (Sim.zeroForces sim1))) := by
      unfold Sim.update
      rw [if_neg (by omega)]
    have hZ1 : (Sim.zeroForces sim1).count = 1 := hc
    have hP := Sim.forcePhase_of_count_le_one sqrt (Sim.zeroForces sim1)
      (by rw [hZ1])
    set P := Sim.forcePhase sqrt (Sim.zeroForces sim1) with hPdef
    have hPfx : P.fx 0 = 0 := by
      rw [hP]
      split_ifs <;> rfl
    have hPfy : P.fy 0 = 0 := by
      rw [hP]
      split_ifs <;> rfl
    have hPx : P.x 0 = sim1.x 0 := by
      rw [hP]
      split_ifs <;> rfl
    have hPvx : P.vx 0 = sim1.vx 0 := by
      rw [hP]
      split_ifs <;> rfl
    have hPc : P.count = 1 := by
      rw [hP]
      split_ifs <;> exact hc
    set dts := min dt (1/30) * 60 with hdts
    have hdtsnn : 0 ≤ dts := by
      rw [hdts]
      have : (0:ℚ) ≤ min dt (1/30) := le_min hdt (by norm_num)
      linarith
    set I := Sim.integrate sqrt (min dt (1/30)) P with hIdef
    have hIc : I.count = 1 := by
      rw [hIdef]
      unfold Sim.integrate
      rw [integrate_foldl_eq]
      exact hPc
    have hIw : I.width = P.width := by
      rw [hIdef]
      unfold Sim.integrate
      rw [integrate_foldl_eq]
    have hIvx : I.vx 0 = (integrateVelocitySpec sqrt dts (P.vx 0) (P.vy 0)
        (P.fx 0) (P.fy 0)).1 := by
      rw [hIdef]
      unfold Sim.integrate
      rw [integrate_foldl_eq]
      dsimp only
      rw [if_pos (by omega : 0 < P.count)]
    have hIx : I.x 0 = P.x 0 + (integrateVelocitySpec sqrt dts (P.vx 0)
        (P.vy 0) (P.fx 0) (P.fy 0)).1 * dts := by
      rw [hIdef]
      unfold Sim.integrate
      rw [integrate_foldl_eq]
      dsimp only
      rw [if_pos (by omega : 0 < P.count)]
    have hvel : (integrateVelocitySpec sqrt dts (P.vx 0) (P.vy 0)
        (P.fx 0) (P.fy 0)).1 ≤ 0 := by
      rw [hPvx, hv, hPfx, hPfy]
      exact integrateVelocitySpec_fst_nonpos sqrt dts (-2) (P.vy 0) 0 0
        (by norm_num [FRICTION])
    have hIx4 : I.x 0 < PARTICLE_RADIUS := by
      rw [hIx, hPx, hx]
      have : (integrateVelocitySpec sqrt dts (P.vx 0) (P.vy 0) (P.fx 0)
          (P.fy 0)).1 * dts ≤ 0 := mul_nonpos_of_nonpos_of_nonneg hvel hdtsnn
      unfold PARTICLE_RADIUS
      linarith
    rw [hupd]
    obtain ⟨hb1, hb2, -, -⟩ := hchar I 0 (by omega)
    rw [hb1, hb2]
    unfold boundaryPosSpec boundaryVelSpec
    rw [if_pos hIx4, if_pos hIx4]
    exact ⟨rfl, mul_nonneg (abs_nonneg _) (by norm_num)⟩

/-- A one-particle state at `x = PARTICLE_RADIUS - 1` with `vx = -2`. -/
def reflectSim : Sim :=
  { width := 800
    height := 600
    count := 1
    x := fun _ => 3
    y := fun _ => 100
    vx := fun _ => -2
    vy := fun _ => 0
    types := fun _ => 0
    typeCount := 1
    interactionMatrix := fun _ _ => 0
    fx := fun _ => 0
    fy := fun _ => 0
    useBruteForce := true
    interactionRadius := 300
    spatialHash := mkSpatialHash 300 800 600 }

/-- A one-particle state past the upper x bound (`x = 799` in an 800-wide
world) moving right. -/
def reflectSimHigh : Sim :=
  { reflectSim with x := fun _ => 799, vx := fun _ => 2 }

/-- C4 witness: the lower-bound reflection (clamp to 4, velocity
non-negative), the upper-bound reflection (clamp to 796, velocity
non-positive), and the claim's one-`update` instance. -/
theorem boundary_reflection_witness :
    ((Sim.handleBoundaries reflectSim).x 0 = PARTICLE_RADIUS ∧
      0 ≤ (Sim.handleBoundaries reflectSim).vx 0) ∧
    ((Sim.handleBoundaries reflectSimHigh).x 0 =
        reflectSimHigh.width - PARTICLE_RADIUS ∧
      (Sim.handleBoundaries reflectSimHigh).vx 0 ≤ 0) ∧
    ((Sim.update (fun _ => 0) (1/60) reflectSim).x 0 = PARTICLE_RADIUS ∧
      0 ≤ (Sim.update (fun _ => 0) (1/60) reflectSim).vx 0) := by
  refine ⟨?_, ?_, ?_⟩
  · obtain ⟨h1, h2, h3⟩ := (boundary_reflection reflectSim 0 (fun _ => 0)
      (1/60) reflectSim).2.1 (by norm_num [reflectSim])
      (by norm_num [reflectSim, PARTICLE_RADIUS])
    exact ⟨h1, h3⟩
  · obtain ⟨h1, h2, h3⟩ := (boundary_reflection reflectSimHigh 0 (fun _ => 0)
      (1/60) reflectSimHigh).2.2.1 (by norm_num [reflectSimHigh, reflectSim])
      (by norm_num [reflectSimHigh, reflectSim, PARTICLE_RADIUS])
      (by norm_num [reflectSimHigh, reflectSim, PARTICLE_RADIUS])
    exact ⟨h1, h3⟩
  · exact (boundary_reflection reflectSim 0 (fun _ => 0) (1/60)
      reflectSim).2.2.2 (by norm_num [reflectSim])
      (by norm_num [reflectSim, PARTICLE_RADIUS])
      (by norm_num [reflectSim]) (by norm_num)

/-- The brute-force magnitude formula exactly as the spec words it:
`avgAttraction * FORCE_SCALE * (REPULSION_RADIUS / dist) ^ 2` (the falloff
exponent in the code is fixed at 2), minus
`REPULSION_STRENGTH * (1 - dist/REPULSION_RADIUS) ^ 2` when
`dist < REPULSION_RADIUS`. -/
def bruteForceMagnitudeSpec (matrix : ℕ → ℕ → ℚ) (ti tj : ℕ)
    (dist : ℚ) : ℚ :=
  let avgAttraction := (matrix ti tj + matrix tj ti) / 2
  let base := avgAttraction * FORCE_SCALE * (REPULSION_RADIUS / dist) ^ 2
  if dist < REPULSION_RADIUS then
    base - REPULSION_STRENGTH * (1 - dist / REPULSION_RADIUS) ^ 2
  else base

/-- C6: in the brute-force pair computation, the pair is skipped (both
accumulators untouched) iff the squared distance is below `1e-4`; otherwise —
with `d` the value of the square root at the squared distance, exact and
non-negative there — the contribution applied to `i` (and negated on `j`) is
exactly `bruteForceMagnitudeSpec` (base exponent 2, repulsion added below
`REPULSION_RADIUS`) times the unit direction; there is no distance cutoff
beyond the singularity guard. -/
theorem bruteForce_pair_magnitude (sqrt : ℚ → ℚ) (sim : Sim) (i j : ℕ)
    (hij : i ≠ j) :
    (Sim.distSq sim i j < 1/10000 →
      Sim.bfPairUpdate sqrt sim i j = sim) ∧
    (¬ Sim.distSq sim i j < 1/10000 →
      ∀ d, sqrt (Sim.distSq sim i j) = d → d * d = Sim.distSq sim i j →
        0 ≤ d →
        (Sim.bfPairUpdate sqrt sim i j).fx i = sim.fx i +
          bruteForceMagnitudeSpec sim.interactionMatrix (sim.types i)
            (sim.types j) d * ((sim.x j - sim.x i) / d) ∧
        (Sim.bfPairUpdate sqrt sim i j).fy i = sim.fy i +
          bruteForceMagnitudeSpec sim.interactionMatrix (sim.types i)
            (sim.types j) d * ((sim.y j - sim.y i) / d) ∧
        (Sim.bfPairUpdate sqrt sim i j).fx j = sim.fx j -
          bruteForceMagnitudeSpec sim.interactionMatrix (sim.types i)
            (sim.types j) d * ((sim.x j - sim.x i) / d) ∧
        (Sim.bfPairUpdate sqrt sim i j).fy j = sim.fy j -
          bruteForceMagnitudeSpec sim.interactionMatrix (sim.types i)
            (sim.types j) d * ((sim.y j - sim.y i) / d)) := by
  constructor
  · intro h
    simp only [Sim.bfPairUpdate]
    rw [if_pos (by simpa [Sim.distSq] using h)]
  · intro h d hd hdd hd0
    simp only [Sim.distSq] at h hd hdd
    have hR : (0:ℚ) < REPULSION_RADIUS := by norm_num [REPULSION_RADIUS,
      PARTICLE_RADIUS]
    have hcond : ((sim.x j - sim.x i) * (sim.x j - sim.x i) +
        (sim.y j - sim.y i) * (sim.y j - sim.y i) <
          REPULSION_RADIUS * REPULSION_RADIUS) ↔ d < REPULSION_RADIUS := by
      constructor
      · intro hlt
        nlinarith
      · intro hlt
        nlinarith
    have hmag : (if (sim.x j - sim.x i) * (sim.x j - sim.x i) +
          (sim.y j - sim.y i) * (sim.y j - sim.y i) <
            REPULSION_RADIUS * REPULSION_RADIUS then
          (sim.interactionMatrix (sim.types i) (sim.types j) +
            sim.interactionMatrix (sim.types j) (sim.types i)) / 2 *
            FORCE_SCALE * (REPULSION_RADIUS / d) * (REPULSION_RADIUS / d) -
            REPULSION_STRENGTH * (1 - d / REPULSION_RADIUS) *
              (1 - d / REPULSION_RADIUS)
        else
          (sim.interactionMatrix (sim.types i) (sim.types j) +
            sim.interactionMatrix (sim.types j) (sim.types i)) / 2 *
            FORCE_SCALE * (REPULSION_RADIUS / d) * (REPULSION_RADIUS / d)) =
        bruteForceMagnitudeSpec sim.interactionMatrix (sim.types i)
          (sim.types j) d := by
      unfold bruteForceMagnitudeSpec
      dsimp only
      split_ifs with h1 h2 h3
      · ring
      · exact absurd (hcond.mp h1) h2
      · exact absurd (hcond.mpr h3) h1
      · ring
    simp only [Sim.bfPairUpdate]
    rw [if_neg (by simpa using h), hd]
    refine ⟨?_, ?_, ?_, ?_⟩
    · dsimp only
      rw [Function.update_noteq hij, Function.update_same, hmag]
    · dsimp only
      rw [Function.update_noteq hij, Function.update_same, hmag]
    · dsimp only
      rw [Function.update_same, Function.update_noteq (Ne.symm hij), hmag]
    · dsimp only
      rw [Function.update_same, Function.update_noteq (Ne.symm hij), hmag]

/-- C6 witness: a co-located pair (both particles of `reflectSim` read
position (3,100)) is skipped, and for the pair (0,1) of `fourTypeSim` at
distance 10 (square root exact there) the applied x-contribution equals the
spec magnitude times the unit direction. -/
theorem bruteForce_pair_magnitude_witness :
    (Sim.bfPairUpdate (fun _ => 0) reflectSim 0 1 = reflectSim) ∧
    ((Sim.bfPairUpdate sqrtW fourTypeSim 0 1).fx 0 = fourTypeSim.fx 0 +
      bruteForceMagnitudeSpec fourTypeSim.interactionMatrix
        (fourTypeSim.types 0) (fourTypeSim.types 1) 10 *
        ((fourTypeSim.x 1 - fourTypeSim.x 0) / 10)) := by
  constructor
  · exact (bruteForce_pair_magnitude (fun _ => 0) reflectSim 0 1
      (by norm_num)).1 (by norm_num [Sim.distSq, reflectSim])
  · exact ((bruteForce_pair_magnitude sqrtW fourTypeSim 0 1
      (by norm_num)).2 (by norm_num [Sim.distSq, fourTypeSim]) 10
      (by norm_num [Sim.distSq, fourTypeSim, sqrtW])
      (by norm_num [Sim.distSq, fourTypeSim]) (by norm_num)).1

theorem List.foldl_fixed {α β : Type} (f : α → β → α) (l : List β) (s : α)
    (h : ∀ b ∈ l, f s b = s) : l.foldl f s = s := by
  induction l with
  | nil => rfl
  | cons b l ihl =>
      simp only [List.foldl_cons]
      rw [h b (List.mem_cons_self b l)]
      exact ihl fun b2 hb2 => h b2 (List.mem_cons_of_mem b hb2)

/-- Under an all-zero interaction matrix and pair separation of at least
`REPULSION_RADIUS`, a brute-force pair step is the identity. -/
theorem Sim.bfPairUpdate_id (sqrt : ℚ → ℚ) (s : Sim) (i j : ℕ)
    (hmat : ∀ a b, s.interactionMatrix a b = 0)
    (hsep : REPULSION_RADIUS * REPULSION_RADIUS ≤ Sim.distSq s i j) :
    Sim.bfPairUpdate sqrt s i j = s := by
  simp only [Sim.distSq] at hsep
  simp only [Sim.bfPairUpdate]
  split_ifs with h1 h2
  · rfl
  · linarith
  · simp only [hmat]
    norm_num [Function.update_eq_self]

/-- The same for a spatial-hash pair step (for `j ≤ i` it is the skip). -/
theorem Sim.shPairUpdate_id (sqrt : ℚ → ℚ) (s : Sim) (i j : ℕ)
    (hmat : ∀ a b, s.interactionMatrix a b = 0)
    (hsep : i < j → REPULSION_RADIUS * REPULSION_RADIUS ≤ Sim.distSq s i j) :
    Sim.shPairUpdate sqrt s i j = s := by
  simp only [Sim.shPairUpdate]
  split_ifs with h1 h2 h3
  · rfl
  · rfl
  · exfalso
    have := hsep (by omega)
    simp only [Sim.distSq] at this
    linarith
  · simp only [hmat]
    norm_num [Function.update_eq_self]

/-- C8 (amended): with an all-zero matrix, all particles at rest, no
boundary contact, and every pair of distinct particles separated by at least
`REPULSION_RADIUS` (squared distances at least `REPULSION_RADIUS²` — the
restriction the close-range repulsion term forces), one `update(dt)` leaves
every position and velocity exactly unchanged, in both force modes and for
every square-root function and `dt`. -/
theorem update_noop_zero_matrix (sqrt : ℚ → ℚ) (dt : ℚ) (sim : Sim)
    (hmat : ∀ a b, sim.interactionMatrix a b = 0)
    (hvel : ∀ i, sim.vx i = 0 ∧ sim.vy i = 0)
    (hbound : ∀ i, i < sim.count →
      PARTICLE_RADIUS ≤ sim.x i ∧ sim.x i ≤ sim.width - PARTICLE_RADIUS ∧
      PARTICLE_RADIUS ≤ sim.y i ∧ sim.y i ≤ sim.height - PARTICLE_RADIUS)
    (hsep : ∀ i j, i < sim.count → j < sim.count → i ≠ j →
      REPULSION_RADIUS * REPULSION_RADIUS ≤ Sim.distSq sim i j) :
    ∀ i, (Sim.update sqrt dt sim).x i = sim.x i ∧
      (Sim.update sqrt dt sim).y i = sim.y i ∧
      (Sim.update sqrt dt sim).vx i = sim.vx i ∧
      (Sim.update sqrt dt sim).vy i = sim.vy i := by
  intro i
  by_cases hcz : sim.count = 0
  · unfold Sim.update
    rw [if_pos hcz]
    exact ⟨rfl, rfl, rfl, rfl⟩
  have hupd : Sim.update sqrt dt sim =
      Sim.handleBoundaries (Sim.integrate sqrt (min dt (1/30))
        (Sim.forcePhase sqrt (Sim.zeroForces sim))) := by
    unfold Sim.update
    rw [if_neg hcz]
  set Z := Sim.zeroForces sim with hZ
  have hbf : Sim.calculateForcesBruteForce sqrt Z = Z := by
    unfold Sim.calculateForcesBruteForce
    apply List.foldl_fixed
    intro b hb
    unfold Sim.bfInner
    apply List.foldl_fixed
    intro j hj
    rw [List.mem_range] at hb
    have hjr := List.mem_range'_1.mp hj
    have hZc : Z.count = sim.count := rfl
    rw [hZc] at hb hjr
    apply Sim.bfPairUpdate_id sqrt Z b j hmat
    exact hsep b j (by omega) (by omega) (by omega)
  have hsh : Sim.calculateForces sqrt (Sim.rebuildSpatialHash Z) =
      Sim.rebuildSpatialHash Z := by
    unfold Sim.calculateForces
    apply List.foldl_fixed
    intro b hb
    unfold Sim.shInner
    apply List.foldl_fixed
    intro j hj
    rw [List.mem_range] at hb
    have hjlt : j < sim.count := by
      obtain ⟨c, hcmem⟩ := SpatialHash.mem_grid_of_mem_getNearby _ _ _ j hj
      by_contra hge
      have hcnt := rebuild_grid_count Z.x Z.y Z.spatialHash Z.count j c
      have hnot : ¬ (j < Z.count ∧ c = Z.spatialHash.getCellIndex
          (Z.x j) (Z.y j)) := by
        intro hcontra
        exact hge hcontra.1
      rw [if_neg hnot] at hcnt
      exact (List.count_eq_zero.mp hcnt) hcmem
    have hRc : (Sim.rebuildSpatialHash Z).count = sim.count := rfl
    rw [hRc] at hb
    apply Sim.shPairUpdate_id sqrt (Sim.rebuildSpatialHash Z) b j hmat
    intro hbj
    exact hsep b j (by omega) hjlt (by omega)
  have hPhase : Sim.forcePhase sqrt Z = Z ∨
      Sim.forcePhase sqrt Z = Sim.rebuildSpatialHash Z := by
    unfold Sim.forcePhase
    split_ifs
    · exact Or.inl hbf
    · exact Or.inr hsh
  have hPfx : ∀ k, (Sim.forcePhase sqrt Z).fx k = 0 ∧
      (Sim.forcePhase sqrt Z).fy k = 0 := by
    intro k
    rcases hPhase with hh | hh <;> rw [hh] <;> exact ⟨rfl, rfl⟩
  have hPkin : (Sim.forcePhase sqrt Z).x = sim.x ∧
      (Sim.forcePhase sqrt Z).y = sim.y ∧
      (Sim.forcePhase sqrt Z).vx = sim.vx ∧
      (Sim.forcePhase sqrt Z).vy = sim.vy ∧
      (Sim.forcePhase sqrt Z).count = sim.count ∧
      (Sim.forcePhase sqrt Z).width = sim.width ∧
      (Sim.forcePhase sqrt Z).height = sim.height := by
    rcases hPhase with hh | hh <;> rw [hh] <;>
      exact ⟨rfl, rfl, rfl, rfl, rfl, rfl, rfl⟩
  obtain ⟨hPx, hPy, hPvx, hPvy, hPc, hPw, hPh⟩ := hPkin
  set P := Sim.forcePhase sqrt Z with hPdef
  have hspec0 : ∀ dts, integrateVelocitySpec sqrt dts 0 0 0 0 = (0, 0) := by
    intro dts
    unfold integrateVelocitySpec
    dsimp only
    split_ifs <;> simp
  set I := Sim.integrate sqrt (min dt (1/30)) P with hIdef
  have hI : ∀ k, I.x k = sim.x k ∧ I.y k = sim.y k ∧
      I.vx k = sim.vx k ∧ I.vy k = sim.vy k := by
    intro k
    have hIe : I = Sim.integrate sqrt (min dt (1/30)) P := hIdef
    unfold Sim.integrate at hIe
    rw [integrate_foldl_eq] at hIe
    rw [hIe]
    dsimp only
    by_cases hk : k < P.count
    · rw [if_pos hk, if_pos hk, if_pos hk, if_pos hk,
        hPx, hPy, hPvx, hPvy, (hPfx k).1, (hPfx k).2,
        (hvel k).1, (hvel k).2, hspec0]
      norm_num [(hvel k).1, (hvel k).2]
    · rw [if_neg hk, if_neg hk, if_neg hk, if_neg hk,
        hPx, hPy, hPvx, hPvy]
      exact ⟨rfl, rfl, rfl, rfl⟩
  have hIc : I.count = sim.count := by
    rw [hIdef]
    unfold Sim.integrate
    rw [integrate_foldl_eq]
    exact hPc
  have hIw : I.width = sim.width := by
    rw [hIdef]
    unfold Sim.integrate
    rw [integrate_foldl_eq]
    exact hPw
  have hIh : I.height = sim.height := by
    rw [hIdef]
    unfold Sim.integrate
    rw [integrate_foldl_eq]
    exact hPh
  have hHB : ∀ k, (Sim.handleBoundaries I).x k = I.x k ∧
      (Sim.handleBoundaries I).y k = I.y k ∧
      (Sim.handleBoundaries I).vx k = I.vx k ∧
      (Sim.handleBoundaries I).vy k = I.vy k := by
    intro k
    unfold Sim.handleBoundaries
    rw [handleBoundaries_foldl_eq]
    dsimp only
    by_cases hk : k < I.count
    · obtain ⟨hx1, hy1, hvx1, hvy1⟩ := hI k
      have hbk := hbound k (by omega)
      rw [if_pos hk, if_pos hk, if_pos hk, if_pos hk]
      unfold boundaryPosSpec boundaryVelSpec
      rw [hx1, hy1, hIw, hIh]
      have c1 : ¬ sim.x k < PARTICLE_RADIUS := by linarith [hbk.1]
      have c2 : ¬ sim.x k > sim.width - PARTICLE_RADIUS := by
        linarith [hbk.2.1]
      have c3 : ¬ sim.y k < PARTICLE_RADIUS := by linarith [hbk.2.2.1]
      have c4 : ¬ sim.y k > sim.height - PARTICLE_RADIUS := by
        linarith [hbk.2.2.2]
      rw [if_neg c1, if_neg c2, if_neg c1, if_neg c2,
        if_neg c3, if_neg c4, if_neg c3, if_neg c4]
      exact ⟨rfl, rfl, rfl, rfl⟩
    · rw [if_neg hk, if_neg hk, if_neg hk, if_neg hk]
      exact ⟨rfl, rfl, rfl, rfl⟩
  rw [hupd]
  obtain ⟨hb1, hb2, hb3, hb4⟩ := hHB i
  obtain ⟨hi1, hi2, hi3, hi4⟩ := hI i
  exact ⟨by rw [hb1, hi1], by rw [hb2, hi2], by rw [hb3, hi3],
    by rw [hb4, hi4]⟩

/-- A square-root stub agreeing with the true square root at the only force
distance this run consults (`25 ↦ 5`); at the integration speed check it
returns `0`, which falls on the same side of `MAX_VELOCITY` as the true
(sub-unit) speed. -/
def sqrt5 : ℚ → ℚ := fun q => if q = 25 then 5 else 0

/-- Two at-rest particles 5 apart (inside `REPULSION_RADIUS = 8`), zero
matrix, far from every wall. -/
def closeSim : Sim :=
  { width := 800
    height := 600
    count := 2
    x := fun i => if i = 1 then 105 else 100
    y := fun _ => 100
    vx := fun _ => 0
    vy := fun _ => 0
    types := fun _ => 0
    typeCount := 1
    interactionMatrix := fun _ _ => 0
    fx := fun _ => 0
    fy := fun _ => 0
    useBruteForce := true
    interactionRadius := 300
    spatialHash := mkSpatialHash 300 800 600 }

/-- C8 counterexample: `closeSim` satisfies every hypothesis of the claim as
stated (zero matrix, at rest, no boundary contact), yet one `update` moves
particle 0 — the matrix-independent close-range repulsion acts below
`REPULSION_RADIUS`. -/
theorem update_noop_zero_matrix_counterexample :
    (∀ a b, closeSim.interactionMatrix a b = 0) ∧
    (∀ i, closeSim.vx i = 0 ∧ closeSim.vy i = 0) ∧
    (∀ i, i < closeSim.count →
      PARTICLE_RADIUS ≤ closeSim.x i ∧
      closeSim.x i ≤ closeSim.width - PARTICLE_RADIUS ∧
      PARTICLE_RADIUS ≤ closeSim.y i ∧
      closeSim.y i ≤ closeSim.height - PARTICLE_RADIUS) ∧
    (Sim.update sqrt5 (1/60) closeSim).x 0 ≠ closeSim.x 0 := by
  refine ⟨fun a b => rfl, fun i => ⟨rfl, rfl⟩, ?_, ?_⟩
  · intro i hi
    have hi2 : i < 2 := hi
    interval_cases i <;> norm_num [closeSim, PARTICLE_RADIUS]
  · with_unfolding_all decide

/-- Two at-rest particles 10 apart (outside `REPULSION_RADIUS`). -/
def farSim : Sim :=
  { closeSim with x := fun i => if i = 1 then 110 else 100 }

/-- C8 witness: with the amended separation hypothesis satisfied (pair
distance 10), one `update` leaves positions and velocities unchanged. -/
theorem update_noop_zero_matrix_witness :
    (Sim.update sqrt5 (1/60) farSim).x 0 = farSim.x 0 ∧
    (Sim.update sqrt5 (1/60) farSim).vx 1 = farSim.vx 1 := by
  have h := update_noop_zero_matrix sqrt5 (1/60) farSim
    (fun a b => rfl) (fun i => ⟨rfl, rfl⟩)
    (by intro i hi
        have hi2 : i < 2 := hi
        interval_cases i <;>
          norm_num [farSim, closeSim, PARTICLE_RADIUS])
    (by intro i j hi hj hij
        have hi2 : i < 2 := hi
        have hj2 : j < 2 := hj
        interval_cases i <;> interval_cases j <;>
          first
            | omega
            | norm_num [Sim.distSq, farSim, closeSim, REPULSION_RADIUS,
                PARTICLE_RADIUS])
  exact ⟨(h 0).1, (h 1).2.2.1⟩

/-- Random stream for the C5 placement run: draws mapping attempt 0 to the
point (100, 100) and attempt 1 to (105, 100) in an 800×600 world with
padding 4; all draws lie in `[0, 1)`. -/
def randC5 : ℕ → ℚ := fun k =>
  if k = 0 then 4/33
  else if k = 1 then 6/37
  else if k = 2 then 101/792
  else if k = 3 then 6/37
  else 0

/-- The C5 run after its first (successful) attempt: particle 0 at
(100, 100). -/
def placeC5S1 : PlaceState :=
  { x := Function.update (fun _ => 0) 0 100
    y := Function.update (fun _ => 0) 0 100
    types := Function.update (fun _ => 0) 0 0
    placed := 1
    hash := (mkSpatialHash PARTICLE_RADIUS 800 600).insert 0 100 100 }

/-- The C5 run after its second (successful) attempt: particle 1 at
(105, 100), accepted at center distance 5 from particle 0. -/
def placeC5S2 : PlaceState :=
  { x := Function.update (Function.update (fun _ => 0) 0 100) 1 105
    y := Function.update (Function.update (fun _ => 0) 0 100) 1 100
    types := Function.update (Function.update (fun _ => 0) 0 0) 1 1
    placed := 2
    hash := ((mkSpatialHash PARTICLE_RADIUS 800 600).insert 0 100 100).insert
      1 105 100 }

set_option maxRecDepth 4000 in
theorem placeC5_attempt0 :
    placeAttempt randC5 800 600 3 0 (placeInit 800 600) = placeC5S1 := by
  with_unfolding_all rfl

theorem placeC5_nearby : placeC5S1.hash.getNearby 105 100 = [0] := by
  have hfl1 : ⌊(105:ℚ)/PARTICLE_RADIUS⌋ = 26 := by with_unfolding_all decide
  have hfl2 : ⌊(100:ℚ)/PARTICLE_RADIUS⌋ = 25 := by with_unfolding_all decide
  have hcols : (⌈(800:ℚ)/PARTICLE_RADIUS⌉) = 200 := by with_unfolding_all decide
  have hrows : (⌈(600:ℚ)/PARTICLE_RADIUS⌉) = 150 := by with_unfolding_all decide
  show ((mkSpatialHash PARTICLE_RADIUS 800 600).insert 0 100 100).getNearby
    105 100 = [0]
  simp only [SpatialHash.getNearby, SpatialHash.insert,
    SpatialHash.getCellIndex, mkSpatialHash]
  rw [hfl1, hfl2, hcols, hrows]
  norm_num
  rfl

set_option maxRecDepth 4000 in
theorem placeC5_collision1 : placeCollision placeC5S1 105 100 = false := by
  unfold placeCollision
  rw [placeC5_nearby]
  with_unfolding_all decide

set_option maxRecDepth 4000 in
theorem placeC5_attempt1 :
    placeAttempt randC5 800 600 3 1 placeC5S1 = placeC5S2 := by
  simp only [placeAttempt]
  have hpx : PARTICLE_RADIUS + randC5 (2 * 1) * (800 - 2 * PARTICLE_RADIUS)
      = 105 := by
    norm_num [randC5, PARTICLE_RADIUS]
  have hpy : PARTICLE_RADIUS + randC5 (2 * 1 + 1) *
      (600 - 2 * PARTICLE_RADIUS) = 100 := by
    norm_num [randC5, PARTICLE_RADIUS]
  rw [hpx, hpy, placeC5_collision1]
  rw [if_neg (by simp)]
  with_unfolding_all rfl

set_option maxRecDepth 4000 in
theorem placeC5_eq_front :
    placeParticlesNoOverlap randC5 800 600 3 2 = placeC5S2 := by
  have hsplit : List.range (2 * 100) = List.range' 0 2 ++ List.range' 2 198 := by
    with_unfolding_all decide
  unfold placeParticlesNoOverlap
  rw [hsplit, List.foldl_append]
  have hpre : List.foldl
      (fun st a => if st.placed < 2 then placeAttempt randC5 800 600 3 a st
        else st)
      (placeInit 800 600)
      (List.range' 0 2) = placeC5S2 := by
    rw [show List.range' 0 2 = [0, 1] from rfl]
    simp only [List.foldl_cons, List.foldl_nil]
    have e0 : (if ((placeInit 800 600)).placed < 2 then
        placeAttempt randC5 800 600 3 0 (placeInit 800 600) else (placeInit 800 600)) =
        placeC5S1 := by
      rw [if_pos (by norm_num [placeInit])]
      exact placeC5_attempt0
    have e1 : (if placeC5S1.placed < 2 then
        placeAttempt randC5 800 600 3 1 placeC5S1 else placeC5S1) =
        placeC5S2 := by
      rw [if_pos (by norm_num [placeC5S1])]
      exact placeC5_attempt1
    rw [e0, e1]
  rw [hpre]
  apply List.foldl_fixed
  intro b hb
  rw [if_neg (by norm_num [placeC5S2])]

/-- C5: a successful rejection-sampling run (all `N = 2` particles placed
well before the attempt cap, no random fallback) in which the two placed
particles are only 5 apart — closer than `2.5 × PARTICLE_RADIUS = 10` (and
indeed closer than the `2 × PARTICLE_RADIUS = 8` needed for the function's
own "no overlaps" guarantee): the code's rejection threshold
`minDist = PARTICLE_RADIUS` accepts any pair at center distance `>= 4`. -/
theorem placement_spacing_failure :
    (∀ k, 0 ≤ randC5 k ∧ randC5 k < 1) ∧
    (placeParticlesNoOverlap randC5 800 600 3 2).placed = 2 ∧
    ((placeParticlesNoOverlap randC5 800 600 3 2).x 0 -
      (placeParticlesNoOverlap randC5 800 600 3 2).x 1) ^ 2 +
    ((placeParticlesNoOverlap randC5 800 600 3 2).y 0 -
      (placeParticlesNoOverlap randC5 800 600 3 2).y 1) ^ 2 = 25 ∧
    (25 : ℚ) < (25/10 * PARTICLE_RADIUS) ^ 2 := by
  refine ⟨?_, ?_, ?_, by norm_num [PARTICLE_RADIUS]⟩
  · intro k
    unfold randC5
    split_ifs <;> norm_num
  · rw [placeC5_eq_front]
    rfl
  · rw [placeC5_eq_front]
    norm_num [placeC5S2, Function.update]

/-- The sequence of ordered index pairs traversed by the brute-force double
loop (`i` ascending, `j` from `i+1` to `count-1`). -/
def bfPairSeq (n : ℕ) : List (ℕ × ℕ) :=
  (List.range n).flatMap fun i =>
    (List.range' (i + 1) (n - (i + 1))).map fun j => (i, j)

/-- The sequence of candidate index pairs traversed by the spatial-hash
force loop (`i` ascending, `j` over `getNearby` at particle `i`'s
position). -/
def shPairSeq (sim : Sim) : List (ℕ × ℕ) :=
  (List.range sim.count).flatMap fun i =>
    (sim.spatialHash.getNearby (sim.x i) (sim.y i)).map fun j => (i, j)

theorem List.foldl_flatMap {α β γ : Type} (l : List α) (g : α → List β)
    (f : γ → β → γ) (init : γ) :
    (l.flatMap g).foldl f init =
      l.foldl (fun s a => (g a).foldl f s) init := by
  induction l generalizing init with
  | nil => rfl
  | cons a l ihl =>
      simp only [List.flatMap_cons, List.foldl_append, List.foldl_cons]
      exact ihl ((g a).foldl f init)

theorem List.foldl_congr_inv {α β : Type} (P : α → Prop) (f g : α → β → α)
    (l : List β) (s : α) (hs : P s) (hP : ∀ a b, P a → P (f a b))
    (hfg : ∀ a b, P a → f a b = g a b) : l.foldl f s = l.foldl g s := by
  induction l generalizing s with
  | nil => rfl
  | cons b l ihl =>
      simp only [List.foldl_cons]
      rw [← hfg s b hs]
      exact ihl (f s b) (hP s b hs)

/-- C2 helper: the brute-force computation is the fold of the per-pair step
over `bfPairSeq`. -/
theorem calculateForcesBruteForce_eq_foldl (sqrt : ℚ → ℚ) (sim : Sim) :
    Sim.calculateForcesBruteForce sqrt sim =
      (bfPairSeq sim.count).foldl
        (fun s p => Sim.bfPairUpdate sqrt s p.1 p.2) sim := by
  unfold bfPairSeq
  rw [List.foldl_flatMap]
  unfold Sim.calculateForcesBruteForce
  apply List.foldl_congr_inv (fun s => s.count = sim.count)
  · rfl
  · intro a b hP
    have h1 := Sim.foldl_onlyForcesDiffer
      (fun s j => Sim.bfPairUpdate sqrt s b j)
      (fun s j => Sim.bfPairUpdate_onlyForcesDiffer sqrt s b j)
      (List.range' (b + 1) (a.count - (b + 1))) a
    unfold Sim.bfInner
    rw [h1.eq_count, hP]
  · intro a b hP
    unfold Sim.bfInner
    rw [hP, List.foldl_map]

/-- C2 helper: the spatial-hash computation is the fold of the per-pair step
over `shPairSeq`. -/
theorem calculateForces_eq_foldl (sqrt : ℚ → ℚ) (sim : Sim) :
    Sim.calculateForces sqrt sim =
      (shPairSeq sim).foldl
        (fun s p => Sim.shPairUpdate sqrt s p.1 p.2) sim := by
  unfold shPairSeq
  rw [List.foldl_flatMap]
  unfold Sim.calculateForces
  apply List.foldl_congr_inv
    (fun s => s.x = sim.x ∧ s.y = sim.y ∧ s.spatialHash = sim.spatialHash)
  · exact ⟨rfl, rfl, rfl⟩
  · intro a b hP
    have h1 := Sim.foldl_onlyForcesDiffer
      (fun s j => Sim.shPairUpdate sqrt s b j)
      (fun s j => Sim.shPairUpdate_onlyForcesDiffer sqrt s b j)
      (a.spatialHash.getNearby (a.x b) (a.y b)) a
    unfold Sim.shInner
    refine ⟨?_, ?_, ?_⟩
    · rw [h1.eq_x, hP.1]
    · rw [h1.eq_y, hP.2.1]
    · have : (List.foldl (fun s j => Sim.shPairUpdate sqrt s b j) a
          (a.spatialHash.getNearby (a.x b) (a.y b))).spatialHash =
          a.spatialHash := by
        rw [h1]
      rw [this, hP.2.2]
  · intro a b hP
    unfold Sim.shInner
    rw [hP.1, hP.2.1, hP.2.2, List.foldl_map]

theorem List.count_map_pair (i : ℕ) (l : List ℕ) (a b : ℕ) :
    ((l.map fun j => (i, j)).count (a, b)) =
      if i = a then l.count b else 0 := by
  induction l with
  | nil => simp
  | cons c l ihl =>
      simp only [List.map_cons, List.count_cons, ihl, Prod.mk.injEq]
      by_cases hia : i = a
      · subst hia
        by_cases hbc : b = c
        · subst hbc
          simp
        · simp [hbc]
      · simp [hia, Ne.symm hia]

theorem List.count_flatMap_pairs (g : ℕ → List ℕ) (a b : ℕ) :
    ∀ l : List ℕ,
      ((l.flatMap fun i => (g i).map fun j => (i, j)).count (a, b)) =
        l.count a * (g a).count b := by
  intro l
  induction l with
  | nil => simp
  | cons i l ihl =>
      simp only [List.flatMap_cons, List.count_append, ihl, List.count_cons,
        List.count_map_pair]
      by_cases hia : i = a
      · subst hia
        simp [add_mul]
        ring
      · simp [hia, Ne.symm hia]

theorem List.count_range_eq (n a : ℕ) :
    (List.range n).count a = if a < n then 1 else 0 := by
  by_cases hmem : a ∈ List.range n
  · rw [if_pos (List.mem_range.mp hmem)]
    exact List.count_eq_one_of_mem (List.nodup_range n) hmem
  · rw [if_neg (fun hlt => hmem (List.mem_range.mpr hlt))]
    exact List.count_eq_zero_of_not_mem hmem

theorem List.count_range'_eq (s n a : ℕ) :
    (List.range' s n).count a = if s ≤ a ∧ a < s + n then 1 else 0 := by
  by_cases hmem : a ∈ List.range' s n
  · rw [if_pos (List.mem_range'_1.mp hmem)]
    exact List.count_eq_one_of_mem (List.nodup_range' s n 1 (by norm_num)) hmem
  · rw [if_neg (fun hlt => hmem (List.mem_range'_1.mpr hlt))]
    exact List.count_eq_zero_of_not_mem hmem

/-- C2 helper: the brute-force traversal visits each ordered pair
`i < j < n` exactly once. -/
theorem count_bfPairSeq (n i j : ℕ) (hij : i < j) (hj : j < n) :
    (bfPairSeq n).count (i, j) = 1 := by
  unfold bfPairSeq
  rw [List.count_flatMap_pairs, List.count_range_eq, List.count_range'_eq]
  rw [if_pos (by omega), if_pos (by omega)]

/-- C2 helper: if the grid holds index `j` exactly once, in a valid cell
`(rj, cj)` that lies in the 3×3 window of the query point, then the
`getNearby` candidate list contains `j` exactly once. -/
theorem SpatialHash.getNearby_count_one (h : SpatialHash) (x y : ℚ) (j : ℕ)
    (rj cj : ℤ)
    (hgrid : ∀ c, (h.grid c).count j = if c = rj * h.cols + cj then 1 else 0)
    (hc0 : 0 ≤ cj) (hc1 : cj < h.cols) (hr0 : 0 ≤ rj) (hr1 : rj < h.rows)
    (hcw1 : ⌊x / h.cellSize⌋ - 1 ≤ cj) (hcw2 : cj ≤ ⌊x / h.cellSize⌋ + 1)
    (hrw1 : ⌊y / h.cellSize⌋ - 1 ≤ rj) (hrw2 : rj ≤ ⌊y / h.cellSize⌋ + 1) :
    (h.getNearby x y).count j = 1 := by
  have hcolspos : 0 < h.cols := lt_of_le_of_lt hc0 hc1
  have key : ∀ dr dc : ℤ,
      (List.count j (if (0 ≤ ⌊x / h.cellSize⌋ + dc - 1 ∧
          ⌊x / h.cellSize⌋ + dc - 1 < h.cols ∧
          0 ≤ ⌊y / h.cellSize⌋ + dr - 1 ∧
          ⌊y / h.cellSize⌋ + dr - 1 < h.rows) then
        h.grid ((⌊y / h.cellSize⌋ + dr - 1) * h.cols +
          (⌊x / h.cellSize⌋ + dc - 1))
      else [])) =
      if (dr = rj - ⌊y / h.cellSize⌋ + 1 ∧ dc = cj - ⌊x / h.cellSize⌋ + 1)
        then 1 else 0 := by
    intro dr dc
    by_cases hcond : (0 ≤ ⌊x / h.cellSize⌋ + dc - 1 ∧
        ⌊x / h.cellSize⌋ + dc - 1 < h.cols ∧
        0 ≤ ⌊y / h.cellSize⌋ + dr - 1 ∧
        ⌊y / h.cellSize⌋ + dr - 1 < h.rows)
    · rw [if_pos hcond, hgrid]
      by_cases heq : (⌊y / h.cellSize⌋ + dr - 1) * h.cols +
          (⌊x / h.cellSize⌋ + dc - 1) = rj * h.cols + cj
      · rw [if_pos heq, if_pos ?_]
        have hmul : ((⌊y / h.cellSize⌋ + dr - 1) - rj) * h.cols =
            cj - (⌊x / h.cellSize⌋ + dc - 1) := by
          have : (⌊y / h.cellSize⌋ + dr - 1) * h.cols -
              rj * h.cols = cj - (⌊x / h.cellSize⌋ + dc - 1) := by
            linarith
          linarith [this, sub_mul (⌊y / h.cellSize⌋ + dr - 1) rj h.cols]
        have hrr : ⌊y / h.cellSize⌋ + dr - 1 = rj := by
          by_contra hne
          rcases (by omega : (⌊y / h.cellSize⌋ + dr - 1) - rj ≥ 1 ∨
              (⌊y / h.cellSize⌋ + dr - 1) - rj ≤ -1) with hge | hle
          · nlinarith
          · nlinarith
        constructor
        · omega
        · have : ⌊x / h.cellSize⌋ + dc - 1 = cj := by
            rw [hrr] at heq
            omega
          omega
      · rw [if_neg heq, if_neg ?_]
        intro hcontra
        apply heq
        have h1 : ⌊y / h.cellSize⌋ + dr - 1 = rj := by omega
        have h2 : ⌊x / h.cellSize⌋ + dc - 1 = cj := by omega
        rw [h1, h2]
    · rw [if_neg hcond, if_neg ?_]
      · exact List.count_nil j
      · intro hcontra
        apply hcond
        have h1 : ⌊y / h.cellSize⌋ + dr - 1 = rj := by omega
        have h2 : ⌊x / h.cellSize⌋ + dc - 1 = cj := by omega
        rw [h1, h2]
        exact ⟨hc0, hc1, hr0, hr1⟩
  unfold SpatialHash.getNearby
  rw [show List.range 3 = [0, 1, 2] from rfl]
  simp only [List.flatMap_cons, List.flatMap_nil, List.append_nil,
    List.count_append, Nat.cast_zero, Nat.cast_one, Nat.cast_ofNat]
  rw [key 0 0, key 0 1, key 0 2, key 1 0, key 1 1, key 1 2,
    key 2 0, key 2 1, key 2 2]
  have hK1 : 0 ≤ rj - ⌊y / h.cellSize⌋ + 1 := by omega
  have hK2 : rj - ⌊y / h.cellSize⌋ + 1 ≤ 2 := by omega
  have hM1 : 0 ≤ cj - ⌊x / h.cellSize⌋ + 1 := by omega
  have hM2 : cj - ⌊x / h.cellSize⌋ + 1 ≤ 2 := by omega
  set K := rj - ⌊y / h.cellSize⌋ + 1 with hKdef
  set M := cj - ⌊x / h.cellSize⌋ + 1 with hMdef
  interval_cases K <;> interval_cases M <;> norm_num

theorem abs_le_of_mul_self_le (a c : ℚ) (hc : 0 ≤ c) (h : a * a ≤ c * c) :
    |a| ≤ c := by
  rw [abs_le]
  constructor <;> nlinarith

/-- C2 helper (spatial): in a state whose spatial hash has consistent
geometry, cell size at least the interaction radius, and in-bounds
positions, the spatial-hash traversal after the `update()` rebuild visits a
guard-passing pair `i < j` exactly once. -/
theorem count_shPairSeq_rebuilt (sim : Sim) (i j : ℕ)
    (hw : 0 < sim.width) (hh : 0 < sim.height)
    (hcs : 0 < sim.spatialHash.cellSize)
    (hcols : sim.spatialHash.cols = ⌈sim.width / sim.spatialHash.cellSize⌉)
    (hrows : sim.spatialHash.rows = ⌈sim.height / sim.spatialHash.cellSize⌉)
    (hrad0 : 0 ≤ sim.interactionRadius)
    (hrad : sim.interactionRadius ≤ sim.spatialHash.cellSize)
    (hbx : ∀ k, k < sim.count → 0 ≤ sim.x k ∧ sim.x k ≤ sim.width ∧
      0 ≤ sim.y k ∧ sim.y k ≤ sim.height)
    (hij : i < j) (hj : j < sim.count)
    (hguard : ¬ (Sim.distSq sim i j >
        sim.interactionRadius * sim.interactionRadius ∨
      Sim.distSq sim i j < 1/10000)) :
    (shPairSeq (Sim.rebuildSpatialHash sim)).count (i, j) = 1 := by
  push_neg at hguard
  obtain ⟨hgr, -⟩ := hguard
  have hdsq : Sim.distSq sim i j ≤
      sim.spatialHash.cellSize * sim.spatialHash.cellSize := by
    calc Sim.distSq sim i j ≤
        sim.interactionRadius * sim.interactionRadius := hgr
      _ ≤ sim.spatialHash.cellSize * sim.spatialHash.cellSize := by nlinarith
  have hdx : |sim.x i - sim.x j| ≤ sim.spatialHash.cellSize := by
    apply abs_le_of_mul_self_le _ _ hcs.le
    have hdef : Sim.distSq sim i j = (sim.x j - sim.x i) * (sim.x j - sim.x i)
        + (sim.y j - sim.y i) * (sim.y j - sim.y i) := rfl
    nlinarith [mul_self_nonneg (sim.y j - sim.y i),
      mul_self_nonneg (sim.x j - sim.x i)]
  have hdy : |sim.y i - sim.y j| ≤ sim.spatialHash.cellSize := by
    apply abs_le_of_mul_self_le _ _ hcs.le
    have hdef : Sim.distSq sim i j = (sim.x j - sim.x i) * (sim.x j - sim.x i)
        + (sim.y j - sim.y i) * (sim.y j - sim.y i) := rfl
    nlinarith [mul_self_nonneg (sim.y j - sim.y i),
      mul_self_nonneg (sim.x j - sim.x i)]
  set cs := sim.spatialHash.cellSize with hcsdef
  have hi : i < sim.count := by omega
  obtain ⟨hxi0, hxiw, hyi0, hyih⟩ := hbx i hi
  obtain ⟨hxj0, hxjw, hyj0, hyjh⟩ := hbx j hj
  have hwx := floor_window cs (sim.x i) (sim.x j) hcs hdx
  have hwy := floor_window cs (sim.y i) (sim.y j) hcs hdy
  have hbxi := floor_cell_bounds cs sim.width (sim.x i) hcs hxi0 hxiw
  have hbyi := floor_cell_bounds cs sim.height (sim.y i) hcs hyi0 hyih
  have hbxj := floor_cell_bounds cs sim.width (sim.x j) hcs hxj0 hxjw
  have hbyj := floor_cell_bounds cs sim.height (sim.y j) hcs hyj0 hyjh
  have hcolspos : 0 < ⌈sim.width / cs⌉ := Int.ceil_pos.mpr (div_pos hw hcs)
  have hrowspos : 0 < ⌈sim.height / cs⌉ :=
    Int.ceil_pos.mpr (div_pos hh hcs)
  set R := Sim.rebuildSpatialHash sim with hRdef
  have hRc : R.count = sim.count := rfl
  have hRx : R.x = sim.x := rfl
  have hRy : R.y = sim.y := rfl
  have hgeo : SpatialHash.SameGeometry sim.spatialHash R.spatialHash := by
    have h1 := SpatialHash.foldl_insert_sameGeometry
      (fun k : ℕ => k) sim.x sim.y (List.range sim.count)
      sim.spatialHash.clear
    exact ⟨h1.1, h1.2.1, h1.2.2⟩
  unfold shPairSeq
  rw [List.count_flatMap_pairs, hRc, List.count_range_eq, if_pos hi, one_mul,
    hRx, hRy]
  set cj := max 0 (min (sim.spatialHash.cols - 1) ⌊sim.x j / cs⌋) with hcjdef
  set rj := max 0 (min (sim.spatialHash.rows - 1) ⌊sim.y j / cs⌋) with hrjdef
  apply SpatialHash.getNearby_count_one R.spatialHash (sim.x i) (sim.y i) j
    rj cj
  · intro c
    have hRiff : (R.spatialHash.grid c).count j =
        (((List.range sim.count).foldl
          (fun h k => h.insert k (sim.x k) (sim.y k))
          sim.spatialHash.clear).grid c).count j := rfl
    rw [hRiff, rebuild_grid_count]
    have hidx : sim.spatialHash.getCellIndex (sim.x j) (sim.y j) =
        rj * R.spatialHash.cols + cj := by
      rw [hgeo.2.1, hrjdef, hcjdef, hcsdef]
      rfl
    rw [hidx]
    simp [hj]
  · rw [hcjdef]
    omega
  · rw [hcjdef, hgeo.2.1, hcols]
    omega
  · rw [hrjdef]
    omega
  · rw [hrjdef, hgeo.2.2, hrows]
    omega
  · rw [hgeo.1, ← hcsdef, hcjdef, hcols]
    omega
  · rw [hgeo.1, ← hcsdef, hcjdef, hcols]
    omega
  · rw [hgeo.1, ← hcsdef, hrjdef, hrows]
    omega
  · rw [hgeo.1, ← hcsdef, hrjdef, hrows]
    omega

/-- C2 helper: one brute-force pair visit adds exactly opposite amounts to
the two accumulators (both components). -/
theorem Sim.bfPairUpdate_thirdLaw (sqrt : ℚ → ℚ) (s : Sim) (i j : ℕ)
    (hij : i ≠ j) :
    (Sim.bfPairUpdate sqrt s i j).fx i - s.fx i =
      -((Sim.bfPairUpdate sqrt s i j).fx j - s.fx j) ∧
    (Sim.bfPairUpdate sqrt s i j).fy i - s.fy i =
      -((Sim.bfPairUpdate sqrt s i j).fy j - s.fy j) := by
  simp only [Sim.bfPairUpdate]
  split_ifs with h1 h2
  · simp
  all_goals
    constructor <;>
      (simp only [Function.update_noteq hij, Function.update_same,
        Function.update_noteq (Ne.symm hij)]
       ring)

/-- C2 helper: one spatial-hash pair visit adds exactly opposite amounts to
the two accumulators (both components). -/
theorem Sim.shPairUpdate_thirdLaw (sqrt : ℚ → ℚ) (s : Sim) (i j : ℕ)
    (hij : i ≠ j) :
    (Sim.shPairUpdate sqrt s i j).fx i - s.fx i =
      -((Sim.shPairUpdate sqrt s i j).fx j - s.fx j) ∧
    (Sim.shPairUpdate sqrt s i j).fy i - s.fy i =
      -((Sim.shPairUpdate sqrt s i j).fy j - s.fy j) := by
  simp only [Sim.shPairUpdate]
  split_ifs with h1 h2 h3
  · simp
  · simp
  all_goals
    constructor <;>
      (simp only [Function.update_noteq hij, Function.update_same,
        Function.update_noteq (Ne.symm hij)]
       ring)

/-- Square-root model used by the C2 witness (its value is irrelevant to the
properties instantiated there). -/
def sqrtP : ℚ → ℚ := fun _ => 0

/-- A two-particle state with a geometry-consistent spatial hash: 10×10
world, cell size 5, interaction radius 4, particles at (2,2) and (5,2). -/
def pairSim : Sim :=
  { width := 10
    height := 10
    count := 2
    x := fun i => if i = 1 then 5 else 2
    y := fun _ => 2
    vx := fun _ => 0
    vy := fun _ => 0
    types := fun _ => 0
    typeCount := 1
    interactionMatrix := fun _ _ => 0
    fx := fun _ => 0
    fy := fun _ => 0
    useBruteForce := false
    interactionRadius := 4
    spatialHash := mkSpatialHash 5 10 10 }

/-- A two-particle state in a 2000×600 world, particles at (100,100) and
(900,100), brute-force mode, consistent hash of cell size 300. -/
def staleBase : Sim :=
  { width := 2000
    height := 600
    count := 2
    x := fun i => if i = 1 then 900 else 100
    y := fun _ => 100
    vx := fun _ => 0
    vy := fun _ => 0
    types := fun _ => 0
    typeCount := 1
    interactionMatrix := fun _ _ => 0
    fx := fun _ => 0
    fy := fun _ => 0
    useBruteForce := true
    interactionRadius := 300
    spatialHash := mkSpatialHash 300 2000 600 }

/-- `staleBase` after `setInteractionRadius(1000)` (no hash rebuild in
brute-force mode) and then `setBruteForce(false)`: spatial mode with
interaction radius 1000 but cell size still 300. -/
def staleSim : Sim :=
  Sim.setBruteForce false (Sim.setInteractionRadius 1000 staleBase)

/-- **C2** (corrected): Newton's third law with exactly-once pair
processing.  For every square-root model: (1) both force passes are exactly
folds of their pair bodies over the candidate pair sequences
(`bfPairSeq`/`shPairSeq`); (2) a guard-passing pair `i < j` occurs exactly
once in the brute-force sequence and — under the amendment that the spatial
hash's geometry is consistent (`cols`/`rows` derived from
`width`/`height`/`cellSize`), the interaction radius does not exceed the
cell size, and positions lie in the world rectangle — exactly once in the
spatial sequence on the hash `update()` rebuilds; (3) each visit adds to
particle `i`'s accumulator the exact component-wise negation of what it
adds to `j`'s, in both modes. -/
theorem force_symmetry_exactly_once (sqrt : ℚ → ℚ) (sim : Sim) (i j : ℕ)
    (hw : 0 < sim.width) (hh : 0 < sim.height)
    (hcs : 0 < sim.spatialHash.cellSize)
    (hcols : sim.spatialHash.cols = ⌈sim.width / sim.spatialHash.cellSize⌉)
    (hrows : sim.spatialHash.rows = ⌈sim.height / sim.spatialHash.cellSize⌉)
    (hrad0 : 0 ≤ sim.interactionRadius)
    (hrad : sim.interactionRadius ≤ sim.spatialHash.cellSize)
    (hbnd : ∀ k, k < sim.count → 0 ≤ sim.x k ∧ sim.x k ≤ sim.width ∧
      0 ≤ sim.y k ∧ sim.y k ≤ sim.height)
    (hij : i < j) (hj : j < sim.count)
    (hguard : ¬ (Sim.distSq sim i j >
        sim.interactionRadius * sim.interactionRadius ∨
      Sim.distSq sim i j < 1/10000)) :
    Sim.calculateForcesBruteForce sqrt sim =
      (bfPairSeq sim.count).foldl
        (fun s p => Sim.bfPairUpdate sqrt s p.1 p.2) sim ∧
    Sim.calculateForces sqrt (Sim.rebuildSpatialHash sim) =
      (shPairSeq (Sim.rebuildSpatialHash sim)).foldl
        (fun s p => Sim.shPairUpdate sqrt s p.1 p.2)
        (Sim.rebuildSpatialHash sim) ∧
    (bfPairSeq sim.count).count (i, j) = 1 ∧
    (shPairSeq (Sim.rebuildSpatialHash sim)).count (i, j) = 1 ∧
    (∀ s : Sim,
      ((Sim.bfPairUpdate sqrt s i j).fx i - s.fx i =
          -((Sim.bfPairUpdate sqrt s i j).fx j - s.fx j) ∧
        (Sim.bfPairUpdate sqrt s i j).fy i - s.fy i =
          -((Sim.bfPairUpdate sqrt s i j).fy j - s.fy j)) ∧
      ((Sim.shPairUpdate sqrt s i j).fx i - s.fx i =
          -((Sim.shPairUpdate sqrt s i j).fx j - s.fx j) ∧
        (Sim.shPairUpdate sqrt s i j).fy i - s.fy i =
          -((Sim.shPairUpdate sqrt s i j).fy j - s.fy j))) := by
  refine ⟨calculateForcesBruteForce_eq_foldl sqrt sim,
    calculateForces_eq_foldl sqrt _,
    count_bfPairSeq sim.count i j hij hj,
    count_shPairSeq_rebuilt sim i j hw hh hcs hcols hrows hrad0 hrad hbnd
      hij hj hguard,
    fun s => ⟨Sim.bfPairUpdate_thirdLaw sqrt s i j (Nat.ne_of_lt hij),
      Sim.shPairUpdate_thirdLaw sqrt s i j (Nat.ne_of_lt hij)⟩⟩

/-- C2 witness: on `pairSim` (distance 3 ≤ radius 4) the guard passes and
pair (0,1) is traversed exactly once in each mode. -/
theorem force_symmetry_exactly_once_witness :
    (¬ (Sim.distSq pairSim 0 1 >
        pairSim.interactionRadius * pairSim.interactionRadius ∨
      Sim.distSq pairSim 0 1 < 1/10000)) ∧
    (bfPairSeq pairSim.count).count (0, 1) = 1 ∧
    (shPairSeq (Sim.rebuildSpatialHash pairSim)).count (0, 1) = 1 := by
  have h := force_symmetry_exactly_once sqrtP pairSim 0 1
    (by with_unfolding_all decide) (by with_unfolding_all decide)
    (by with_unfolding_all decide) (by with_unfolding_all decide)
    (by with_unfolding_all decide) (by with_unfolding_all decide)
    (by with_unfolding_all decide) (by with_unfolding_all decide)
    (by decide) (by with_unfolding_all decide)
    (by with_unfolding_all decide)
  exact ⟨by with_unfolding_all decide, h.2.2.1, h.2.2.2.1⟩

/-- C2 counterexample: in `staleSim` (interaction radius 1000, stale cell
size 300) the pair (0,1) at distance 800 passes the spatial-mode distance
guards, yet the spatial traversal on the rebuilt hash never visits it —
particle 1's cell lies outside the 3×3 window around particle 0's cell, so
exactly-once fails for the claim as stated. -/
theorem force_symmetry_exactly_once_counterexample :
    1 < staleSim.count ∧
    (¬ (Sim.distSq staleSim 0 1 >
        staleSim.interactionRadius * staleSim.interactionRadius ∨
      Sim.distSq staleSim 0 1 < 1/10000)) ∧
    (shPairSeq (Sim.rebuildSpatialHash staleSim)).count (0, 1) = 0 := by
  refine ⟨by decide, by with_unfolding_all decide, ?_⟩
  with_unfolding_all decide

end Particles
